import Mathlib

/-!
Verification of the reveal/reroll sequencing engine of the dbdPerkRoulette
repository (a PyQt slot-machine randomiser).  The Python sources under
`dbd_randomiser/` are shallowly embedded below: pure helpers become Lean
functions, the timer-driven widget state becomes explicit state records with
step functions, and Python exceptions (IndexError from `random.choice` on an
empty list, ValueError from `random.sample` with too large a sample size,
AttributeError from reading a never-assigned attribute, FileNotFoundError
from `os.listdir` on a missing folder, TypeError from `os.path.join` with
`None`) become an explicit error type threaded through `Except`.
Randomness is modelled by passing an arbitrary stream of naturals
`f : Nat → Nat`; `random.choice` reads one value and reduces it modulo the
pool size, `random.sample` draws indices one at a time and removes each
chosen element, which is exactly sampling without replacement.
-/

set_option maxRecDepth 10000

namespace DbdRoulette

/-- The Python exceptions that the embedded code can raise. -/
inductive PyErr : Type where
  | indexError
  | valueError
  | attributeError
  | fileNotFoundError
  | typeError
  deriving DecidableEq

/-- Which reveal position a display update belongs to. -/
inductive SlotTag : Type where
  | portrait
  | item
  | addon
  | perk
  deriving DecidableEq

/-- A pick update sent to the display surface: the slot it belongs to and
whether it is a finalized pick (label set) or a transient animation frame. -/
abbrev PickRecord : Type := SlotTag × Bool

/-- `random.choice(l)` with the random draw `r`: returns the element at index
`r % l.length`, or `none` when the list is empty (Python raises IndexError). -/
def randomChoice {α : Type} (l : List α) (r : Nat) : Option α :=
  l[r % l.length]?

/-- `random.choice` on a nonempty list always yields an element of the list. -/
theorem randomChoice_isSome {α : Type} (l : List α) (r : Nat) (h : l ≠ []) :
    ∃ a, randomChoice l r = some a ∧ a ∈ l := by
  have hlen : 0 < l.length := List.length_pos.mpr h
  have hidx : r % l.length < l.length := Nat.mod_lt _ hlen
  refine ⟨l[r % l.length], ?_, List.getElem_mem hidx⟩
  simp [randomChoice, List.getElem?_eq_getElem hidx]

/-- A successful `random.choice` draw is a member of the pool. -/
theorem randomChoice_mem {α : Type} {l : List α} {r : Nat} {a : α}
    (h : randomChoice l r = some a) : a ∈ l := by
  unfold randomChoice at h
  rcases List.getElem?_eq_some_iff.mp h with ⟨hlt, rfl⟩
  exact List.getElem_mem hlt

/-- `random.choice` fails exactly on the empty list. -/
theorem randomChoice_eq_none_iff {α : Type} (l : List α) (r : Nat) :
    randomChoice l r = none ↔ l = [] := by
  constructor
  · intro h
    by_contra hne
    rcases randomChoice_isSome l r hne with ⟨a, ha, _⟩
    rw [h] at ha
    cases ha
  · intro h
    subst h
    rfl

/-- The index-removal core of `random.sample(l, k)`: draw an index from the
random stream, keep that element, remove it from the pool and recurse.  This
is CPython's selection-without-replacement semantics. -/
def randomSample {α : Type} : List α → Nat → (Nat → Nat) → List α
  | _, 0, _ => []
  | l, k + 1, f =>
    match l[f 0 % l.length]? with
    | some a => a :: randomSample (l.eraseIdx (f 0 % l.length)) k (fun n => f (n + 1))
    | none => []

/-- `random.sample(l, k)` as exposed by Python: raises ValueError (here
`none`) when the sample size exceeds the population size. -/
def pySample {α : Type} (l : List α) (k : Nat) (f : Nat → Nat) : Option (List α) :=
  if k ≤ l.length then some (randomSample l k f) else none

theorem randomSample_length {α : Type} :
    ∀ (k : Nat) (l : List α) (f : Nat → Nat), k ≤ l.length →
      (randomSample l k f).length = k := by
  intro k
  induction k with
  | zero => intro l f _; rfl
  | succ n ih =>
    intro l f hk
    have hlen : 0 < l.length := by omega
    have hidx : f 0 % l.length < l.length := Nat.mod_lt _ hlen
    have hget : l[f 0 % l.length]? = some l[f 0 % l.length] :=
      List.getElem?_eq_getElem hidx
    have herase : (l.eraseIdx (f 0 % l.length)).length = l.length - 1 := by
      rw [List.length_eraseIdx]
      simp [hidx]
    simp only [randomSample, hget, List.length_cons]
    rw [ih (l.eraseIdx (f 0 % l.length)) (fun n => f (n + 1)) (by omega)]

/-- All elements produced by `random.sample` come from the pool. -/
theorem randomSample_subset {α : Type} :
    ∀ (k : Nat) (l : List α) (f : Nat → Nat) (x : α),
      x ∈ randomSample l k f → x ∈ l := by
  intro k
  induction k with
  | zero => intro l f x hx; cases hx
  | succ n ih =>
    intro l f x hx
    unfold randomSample at hx
    cases hget : l[f 0 % l.length]? with
    | none => rw [hget] at hx; cases hx
    | some a =>
      rw [hget] at hx
      rcases List.getElem?_eq_some_iff.mp hget with ⟨hlt, ha⟩
      rcases List.mem_cons.mp hx with h | h
      · subst h; rw [← ha]; exact List.getElem_mem hlt
      · exact (List.eraseIdx_sublist l (f 0 % l.length)).subset (ih _ _ x h)

/-- In a duplicate-free pool, the element at a given index does not survive
removing that index. -/
theorem not_mem_eraseIdx_of_nodup {α : Type} :
    ∀ (l : List α) (i : Nat) (a : α), l.Nodup → l[i]? = some a →
      a ∉ l.eraseIdx i := by
  intro l
  induction l with
  | nil => intro i a _ h; cases h
  | cons b t ih =>
    intro i a hnd hget
    cases i with
    | zero =>
      simp only [List.getElem?_cons_zero, Option.some.injEq] at hget
      subst hget
      simpa [List.eraseIdx] using (List.nodup_cons.mp hnd).1
    | succ j =>
      simp only [List.getElem?_cons_succ] at hget
      have hmem : a ∈ t := by
        rcases List.getElem?_eq_some_iff.mp hget with ⟨hlt, ha⟩
        rw [← ha]; exact List.getElem_mem hlt
      intro hcontra
      simp only [List.eraseIdx_cons_succ, List.mem_cons] at hcontra
      rcases hcontra with h | h
      · exact (List.nodup_cons.mp hnd).1 (h ▸ hmem)
      · exact ih j a (List.nodup_cons.mp hnd).2 hget h

/-- `random.sample` from a duplicate-free pool yields pairwise-distinct
picks: this is sampling without replacement. -/
theorem randomSample_nodup {α : Type} :
    ∀ (k : Nat) (l : List α) (f : Nat → Nat), l.Nodup →
      (randomSample l k f).Nodup := by
  intro k
  induction k with
  | zero => intro l f _; simp [randomSample]
  | succ n ih =>
    intro l f hnd
    unfold randomSample
    cases hget : l[f 0 % l.length]? with
    | none => simp
    | some a =>
      rw [List.nodup_cons]
      constructor
      · intro hmem
        exact not_mem_eraseIdx_of_nodup l (f 0 % l.length) a hnd hget
          (randomSample_subset n _ _ a hmem)
      · exact ih _ _ ((List.eraseIdx_sublist l (f 0 % l.length)).nodup hnd)

/-- Sampling as many elements as the pool holds returns the whole pool, up
to order: this is why the clamped call sites hand back the full pool. -/
theorem randomSample_perm {α : Type} :
    ∀ (n : Nat) (l : List α) (f : Nat → Nat), l.length = n →
      (randomSample l n f).Perm l := by
  intro n
  induction n with
  | zero =>
    intro l f hl
    rw [List.length_eq_zero.mp hl]
    rfl
  | succ m ih =>
    intro l f hl
    have hlen : 0 < l.length := by omega
    have hidx : f 0 % l.length < l.length := Nat.mod_lt _ hlen
    have hget : l[f 0 % l.length]? = some l[f 0 % l.length] :=
      List.getElem?_eq_getElem hidx
    have herase : (l.eraseIdx (f 0 % l.length)).length = m := by
      rw [List.length_eraseIdx]
      simp [hidx]
      omega
    have htail := ih (l.eraseIdx (f 0 % l.length)) (fun n => f (n + 1)) herase
    have hsplit : l.eraseIdx (f 0 % l.length) =
        l.take (f 0 % l.length) ++ l.drop (f 0 % l.length + 1) :=
      List.eraseIdx_eq_take_drop_succ l (f 0 % l.length)
    have hl2 : l.take (f 0 % l.length) ++ l[f 0 % l.length] :: l.drop (f 0 % l.length + 1) = l := by
      rw [← List.drop_eq_getElem_cons hidx, List.take_append_drop]
    have hmid : (l[f 0 % l.length] :: l.eraseIdx (f 0 % l.length)).Perm l := by
      rw [hsplit]
      have h2 : (l[f 0 % l.length] ::
          (l.take (f 0 % l.length) ++ l.drop (f 0 % l.length + 1))).Perm
          (l.take (f 0 % l.length) ++ l[f 0 % l.length] :: l.drop (f 0 % l.length + 1)) :=
        List.perm_middle.symm
      rw [hl2] at h2
      exact h2
    simp only [randomSample, hget]
    exact (htail.cons l[f 0 % l.length]).trans hmid

/-! ## String helpers: `utils.format_perk_name` and its ingredients

The label function in `utils.py` is
`os.path.splitext` → `str.replace('_', ' ')` →
`re.sub(r'(?<!^)(?=[A-Z])', ' ', name)` → `str.upper()`.
The pipeline is embedded over `List Char`; Python's `str.upper`/`str.lower`
are modelled on the ASCII range, which covers every character the
repository's asset names and the spec's examples use. -/

/-- Index of the last character satisfying `p`, if any. -/
def findLastIdx (p : Char → Bool) : List Char → Option Nat
  | [] => none
  | c :: cs =>
    match findLastIdx p cs with
    | some i => some (i + 1)
    | none => if p c then some 0 else none

/-- Missing index as Python's `str.rfind` result `-1`. -/
def optIdx : Option Nat → Int
  | none => -1
  | some n => (n : Int)

/-- Is there a character other than `'.'` in positions `[start, stop)`?
This is CPython's scan deciding whether the last dot starts a real
extension (a basename consisting only of leading dots has none). -/
def hasNonDotBefore (cs : List Char) (start stop : Nat) : Bool :=
  ((cs.take stop).drop start).any (fun c => !(c = '.'))

/-- `os.path.splitext` (posix flavour): split at the last `'.'` that lies
after the last path separator and after at least one non-dot character. -/
def splitextChars (cs : List Char) : List Char × List Char :=
  let sepIdx : Int := optIdx (findLastIdx (fun c => c = '/') cs)
  match findLastIdx (fun c => c = '.') cs with
  | none => (cs, [])
  | some d =>
    if sepIdx < (d : Int) then
      if hasNonDotBefore cs (sepIdx + 1).toNat d then (cs.take d, cs.drop d)
      else (cs, [])
    else (cs, [])

/-- `str.replace('_', ' ')`. -/
def replaceUnderscore (cs : List Char) : List Char :=
  cs.map (fun c => if c = '_' then ' ' else c)

/-- The character class `[A-Z]` of the regex in `format_perk_name`. -/
def isUpperAZ (c : Char) : Bool :=
  decide (65 ≤ c.toNat) && decide (c.toNat ≤ 90)

/-- `re.sub(r'(?<!^)(?=[A-Z])', ' ', ·)` on every position after the first:
insert a space before each capital letter. -/
def insertCapSpacesTail : List Char → List Char
  | [] => []
  | c :: cs => (if isUpperAZ c then [' ', c] else [c]) ++ insertCapSpacesTail cs

/-- `re.sub(r'(?<!^)(?=[A-Z])', ' ', ·)`: the lookbehind `(?<!^)` exempts
position 0, so the head character never receives a space. -/
def insertCapSpaces : List Char → List Char
  | [] => []
  | c :: cs => c :: insertCapSpacesTail cs

/-- `str.upper` on one character (ASCII fragment of Python's `str.upper`). -/
def pyToUpper (c : Char) : Char :=
  if 97 ≤ c.toNat ∧ c.toNat ≤ 122 then Char.ofNat (c.toNat - 32) else c

/-- `str.lower` on one character (ASCII fragment of Python's `str.lower`). -/
def pyToLower (c : Char) : Char :=
  if 65 ≤ c.toNat ∧ c.toNat ≤ 90 then Char.ofNat (c.toNat + 32) else c

/-- `str.upper` over a whole string. -/
def upperChars (cs : List Char) : List Char :=
  cs.map pyToUpper

/-- `str.lower` over a whole string. -/
def lowerChars (cs : List Char) : List Char :=
  cs.map pyToLower

/-- `utils.format_perk_name` on the character list. -/
def formatPerkNameChars (cs : List Char) : List Char :=
  upperChars (insertCapSpaces (replaceUnderscore (splitextChars cs).1))

/-- `utils.format_perk_name`: filename → display label. -/
def format_perk_name (s : String) : String :=
  String.mk (formatPerkNameChars s.data)

/-- `os.path.splitext(s)[0]`, as used for `self._picked_item`. -/
def splitextRoot (s : String) : String :=
  String.mk (splitextChars s.data).1

/-- Split a character list at each space, keeping empty pieces, as Python's
`str.split(" ")` does. -/
def splitOnSpaceAux : List Char → List Char → List (List Char)
  | [], acc => [acc.reverse]
  | c :: cs, acc =>
    if c = ' ' then acc.reverse :: splitOnSpaceAux cs []
    else splitOnSpaceAux cs (c :: acc)

/-- Split on spaces, as `str.split(" ")`. -/
def splitOnSpace (cs : List Char) : List (List Char) :=
  splitOnSpaceAux cs []

/-- String-level token split used to restate the spec's re-splitting test. -/
def splitOnSpaceStr (s : String) : List String :=
  (splitOnSpace s.data).map String.mk

/-- A token has no capital letter after its first character. -/
def noInternalUpper : List Char → Bool
  | [] => true
  | _ :: rest => rest.all (fun c => !(isUpperAZ c))

/-! ## Asset-pool construction

`PerkDisplay.__init__` keeps every directory entry that does not start with
`"helpLoading"` (the placeholder), with no extension filter; the portrait,
item and add-on pools keep entries whose lowercased name ends in `".png"`,
with no placeholder exclusion. -/

/-- The perk pool of `PerkDisplay.__init__`:
`[f for f in os.listdir(perk_folder) if not f.startswith("helpLoading")]`. -/
def perkPool (listing : List String) : List String :=
  listing.filter (fun f => !(f.startsWith "helpLoading"))

/-- Python's `f.lower().endswith(".png")`. -/
def endsPng (f : String) : Bool :=
  List.isSuffixOf ".png".data (lowerChars f.data)

/-- The portrait/item/add-on pools:
`[f for f in os.listdir(folder) if f.lower().endswith(".png")]`. -/
def pngPool (listing : List String) : List String :=
  listing.filter (fun f => endsPng f)

/-! ### Facts about the label pipeline -/

theorem pyToUpper_ofNat_fixed (n : Nat) (h1 : 65 ≤ n) (h2 : n ≤ 90) :
    pyToUpper (Char.ofNat n) = Char.ofNat n := by
  interval_cases n <;> decide

theorem ofNat_upper_ne_underscore (n : Nat) (h1 : 65 ≤ n) (h2 : n ≤ 90) :
    Char.ofNat n ≠ '_' := by
  interval_cases n <;> decide

/-- Uppercasing is idempotent on every character. -/
theorem pyToUpper_idem (c : Char) : pyToUpper (pyToUpper c) = pyToUpper c := by
  by_cases h : 97 ≤ c.toNat ∧ c.toNat ≤ 122
  · have h1 : pyToUpper c = Char.ofNat (c.toNat - 32) := by
      unfold pyToUpper
      rw [if_pos h]
    rw [h1]
    exact pyToUpper_ofNat_fixed (c.toNat - 32) (by omega) (by omega)
  · have h1 : pyToUpper c = c := by
      unfold pyToUpper
      rw [if_neg h]
    rw [h1, h1]

/-- Uppercasing never produces an underscore out of something else. -/
theorem eq_underscore_of_pyToUpper (c : Char) (h : pyToUpper c = '_') :
    c = '_' := by
  by_cases hc : 97 ≤ c.toNat ∧ c.toNat ≤ 122
  · exfalso
    unfold pyToUpper at h
    rw [if_pos hc] at h
    exact ofNat_upper_ne_underscore (c.toNat - 32) (by omega) (by omega) h
  · unfold pyToUpper at h
    rwa [if_neg hc] at h

theorem mem_insertCapSpacesTail {c : Char} :
    ∀ (w : List Char), c ∈ insertCapSpacesTail w → c = ' ' ∨ c ∈ w := by
  intro w
  induction w with
  | nil => intro h; cases h
  | cons d rest ih =>
    intro h
    unfold insertCapSpacesTail at h
    by_cases hd : isUpperAZ d = true
    · rw [if_pos hd] at h
      rcases List.mem_append.mp h with h2 | h2
      · simp only [List.mem_cons, List.not_mem_nil, or_false] at h2
        rcases h2 with h3 | h3
        · exact Or.inl h3
        · exact Or.inr (h3 ▸ List.mem_cons_self _ _)
      · rcases ih h2 with h3 | h3
        · exact Or.inl h3
        · exact Or.inr (List.mem_cons_of_mem _ h3)
    · rw [if_neg hd] at h
      rcases List.mem_cons.mp h with h2 | h2
      · exact Or.inr (h2 ▸ List.mem_cons_self _ _)
      · rcases ih h2 with h3 | h3
        · exact Or.inl h3
        · exact Or.inr (List.mem_cons_of_mem _ h3)

theorem mem_insertCapSpaces {c : Char} :
    ∀ (w : List Char), c ∈ insertCapSpaces w → c = ' ' ∨ c ∈ w := by
  intro w h
  cases w with
  | nil => cases h
  | cons d rest =>
    rcases List.mem_cons.mp h with h2 | h2
    · exact Or.inr (h2 ▸ List.mem_cons_self _ _)
    · rcases mem_insertCapSpacesTail rest h2 with h3 | h3
      · exact Or.inl h3
      · exact Or.inr (List.mem_cons_of_mem _ h3)

theorem replaceUnderscore_no_underscore (cs : List Char) :
    ∀ c ∈ replaceUnderscore cs, c ≠ '_' := by
  intro c hc
  rcases List.mem_map.mp hc with ⟨d, _, hd⟩
  by_cases h : d = '_'
  · rw [← hd, if_pos h]; decide
  · rw [← hd, if_neg h]; exact h

/-- Every character of a produced label is fixed by `str.upper`. -/
theorem formatPerkNameChars_upper_fixed (cs : List Char) :
    ∀ c ∈ formatPerkNameChars cs, pyToUpper c = c := by
  intro c hc
  rcases List.mem_map.mp hc with ⟨d, _, hd⟩
  rw [← hd]
  exact pyToUpper_idem d

/-- No produced label contains an underscore. -/
theorem formatPerkNameChars_no_underscore (cs : List Char) :
    ∀ c ∈ formatPerkNameChars cs, c ≠ '_' := by
  intro c hc
  rcases List.mem_map.mp hc with ⟨d, hdmem, hd⟩
  intro heq
  have hd' : d = '_' := eq_underscore_of_pyToUpper d (hd.trans heq)
  subst hd'
  rcases mem_insertCapSpaces _ hdmem with h | h
  · cases h
  · exact replaceUnderscore_no_underscore _ _ h rfl

theorem splitOnSpaceAux_mem :
    ∀ (cs acc : List Char), (∀ c ∈ acc, ¬ c = ' ') →
      ∀ t ∈ splitOnSpaceAux cs acc, ∀ c ∈ t, (c ∈ cs ∨ c ∈ acc) ∧ ¬ c = ' ' := by
  intro cs
  induction cs with
  | nil =>
    intro acc hacc t ht c hc
    unfold splitOnSpaceAux at ht
    rcases List.mem_cons.mp ht with h | h
    · subst h
      have := List.mem_reverse.mp hc
      exact ⟨Or.inr this, hacc c this⟩
    · cases h
  | cons c0 rest ih =>
    intro acc hacc t ht c hc
    unfold splitOnSpaceAux at ht
    by_cases h0 : c0 = ' '
    · rw [if_pos h0] at ht
      rcases List.mem_cons.mp ht with h | h
      · subst h
        have := List.mem_reverse.mp hc
        exact ⟨Or.inr this, hacc c this⟩
      · rcases ih [] (by intro x hx; cases hx) t h c hc with ⟨hm, hs⟩
        rcases hm with hm | hm
        · exact ⟨Or.inl (List.mem_cons_of_mem _ hm), hs⟩
        · cases hm
    · rw [if_neg h0] at ht
      have hacc' : ∀ x ∈ c0 :: acc, ¬ x = ' ' := by
        intro x hx
        rcases List.mem_cons.mp hx with h | h
        · exact h ▸ h0
        · exact hacc x h
      rcases ih (c0 :: acc) hacc' t ht c hc with ⟨hm, hs⟩
      rcases hm with hm | hm
      · exact ⟨Or.inl (List.mem_cons_of_mem _ hm), hs⟩
      · rcases List.mem_cons.mp hm with h | h
        · exact ⟨Or.inl (h ▸ List.mem_cons_self _ _), hs⟩
        · exact ⟨Or.inr h, hs⟩

theorem splitOnSpace_mem (cs : List Char) :
    ∀ t ∈ splitOnSpace cs, ∀ c ∈ t, c ∈ cs ∧ ¬ c = ' ' := by
  intro t ht c hc
  rcases splitOnSpaceAux_mem cs [] (by intro x hx; cases hx) t ht c hc with ⟨hm, hs⟩
  rcases hm with hm | hm
  · exact ⟨hm, hs⟩
  · cases hm

theorem findLastIdx_eq_none (p : Char → Bool) :
    ∀ (cs : List Char), (∀ c ∈ cs, p c = false) → findLastIdx p cs = none := by
  intro cs
  induction cs with
  | nil => intro _; rfl
  | cons c rest ih =>
    intro h
    unfold findLastIdx
    rw [ih (fun x hx => h x (List.mem_cons_of_mem _ hx))]
    simp [h c (List.mem_cons_self _ _)]

theorem splitextChars_no_dot (cs : List Char) (h : ∀ c ∈ cs, ¬ c = '.') :
    splitextChars cs = (cs, []) := by
  unfold splitextChars
  rw [findLastIdx_eq_none (fun c => decide (c = '.')) cs
    (by intro c hc; simpa using h c hc)]

theorem replaceUnderscore_id (cs : List Char) (h : ∀ c ∈ cs, ¬ c = '_') :
    replaceUnderscore cs = cs := by
  induction cs with
  | nil => rfl
  | cons c rest ih =>
    unfold replaceUnderscore
    simp only [List.map_cons]
    rw [if_neg (h c (List.mem_cons_self _ _))]
    have := ih (fun x hx => h x (List.mem_cons_of_mem _ hx))
    unfold replaceUnderscore at this
    rw [this]

theorem insertCapSpacesTail_id (cs : List Char)
    (h : ∀ c ∈ cs, isUpperAZ c = false) : insertCapSpacesTail cs = cs := by
  induction cs with
  | nil => rfl
  | cons c rest ih =>
    unfold insertCapSpacesTail
    rw [if_neg (by simp [h c (List.mem_cons_self _ _)])]
    rw [ih (fun x hx => h x (List.mem_cons_of_mem _ hx))]
    rfl

theorem insertCapSpaces_id (cs : List Char) (h : noInternalUpper cs = true) :
    insertCapSpaces cs = cs := by
  cases cs with
  | nil => rfl
  | cons c rest =>
    have h' : rest.all (fun x => !(isUpperAZ x)) = true := h
    have htail : insertCapSpacesTail rest = rest := by
      apply insertCapSpacesTail_id
      intro x hx
      have := List.all_eq_true.mp h' x hx
      simpa using this
    show c :: insertCapSpacesTail rest = c :: rest
    rw [htail]

theorem upperChars_id (cs : List Char) (h : ∀ c ∈ cs, pyToUpper c = c) :
    upperChars cs = cs := by
  induction cs with
  | nil => rfl
  | cons c rest ih =>
    unfold upperChars
    simp only [List.map_cons]
    rw [h c (List.mem_cons_self _ _)]
    have := ih (fun x hx => h x (List.mem_cons_of_mem _ hx))
    unfold upperChars at this
    rw [this]

/-- A space-split token of a produced label that contains no dot and no
capital letter after its first character is a fixed point of the label
function. -/
theorem formatPerkNameChars_token_fixed (cs t : List Char)
    (ht : t ∈ splitOnSpace (formatPerkNameChars cs))
    (hdot : ∀ c ∈ t, ¬ c = '.') (hup : noInternalUpper t = true) :
    formatPerkNameChars t = t := by
  have hchars := splitOnSpace_mem (formatPerkNameChars cs) t ht
  unfold formatPerkNameChars
  rw [splitextChars_no_dot t hdot]
  rw [replaceUnderscore_id t
    (fun c hc => formatPerkNameChars_no_underscore cs c (hchars c hc).1)]
  rw [insertCapSpaces_id t hup]
  exact upperChars_id t
    (fun c hc => formatPerkNameChars_upper_fixed cs c (hchars c hc).1)

/-! ## Shared draw helpers -/

/-- `random.choice` that raises IndexError on an empty pool. -/
def choiceExc {α : Type} (l : List α) (r : Nat) : Except PyErr α :=
  match randomChoice l r with
  | some a => Except.ok a
  | none => Except.error PyErr.indexError

/-- `PerkDisplay._reveal_perks`: `random.sample(self.perk_files, 4)` — four
image labels, no clamping, so ValueError when the pool holds fewer than 4. -/
def reveal_perks (perkFiles : List String) (f : Nat → Nat) : Option (List String) :=
  pySample perkFiles 4 f

/-- `SurvivorDisplay._animate`, phase-3 finalization:
`random.sample(all_add, 2)` — no clamping. -/
def survivorAddonFinal (allAdd : List String) (f : Nat → Nat) : Option (List String) :=
  pySample allAdd 2 f

/-- The clamped add-on finalization of `FullSurvivorDisplay._step` (phase 3)
and `KillerDisplay._reveal_addons`: `random.sample(files, min(2, len(files)))`. -/
def clampedAddonFinal (files : List String) (f : Nat → Nat) : List String :=
  randomSample files (min 2 files.length) f

/-- `PerkDisplay._animate_spin`: bump the counter, draw one `random.choice`
per image label (IndexError on an empty pool); once the counter passes
`SPIN_STEPS` the timer stops and `_reveal_perks` runs — its unclamped
`random.sample(perk_files, 4)` raises ValueError when the pool holds fewer
than 4 files. -/
def animate_spin (perkFiles : List String) (cnt : Nat) (f : Nat → Nat) :
    Except PyErr (Nat × List PickRecord) :=
  let cnt' := cnt + 1
  match randomChoice perkFiles (f 0), randomChoice perkFiles (f 1),
        randomChoice perkFiles (f 2), randomChoice perkFiles (f 3) with
  | some _, some _, some _, some _ =>
    if cnt' > 20 then
      match pySample perkFiles 4 (fun n => f (n + 4)) with
      | none => Except.error PyErr.valueError
      | some _ =>
        Except.ok (cnt', List.replicate 4 (SlotTag.perk, false) ++
          List.replicate 4 (SlotTag.perk, true))
    else Except.ok (cnt', List.replicate 4 (SlotTag.perk, false))
  | _, _, _, _ => Except.error PyErr.indexError

/-- What becomes of the process after a tick. -/
inductive ProcOutcome : Type where
  | exited (code : Nat)
  | running
  deriving DecidableEq

/-- `main.excepthook`: any exception that escapes a callback prints the
traceback and then calls `sys.exit(1)` — the process terminates. -/
def pyExcepthook {α : Type} : Except PyErr α → ProcOutcome
  | Except.error _ => ProcOutcome.exited 1
  | Except.ok _ => ProcOutcome.running

/-! ## `SurvivorDisplay` (standalone survivor scenario) -/

/-- The asset environment of the survivor scenarios.  `addonDir item` is the
raw `os.listdir` of `images/survivor_items/addons/<item>`, or `none` when
that folder does not exist (`os.listdir` then raises FileNotFoundError). -/
structure SurvEnv : Type where
  portraits : List String
  items : List String
  addonDir : String → Option (List String)

/-- The pick-bearing attributes of a `SurvivorDisplay`.  `pickedItem = none`
models the `self._picked_item` attribute never having been assigned (it is
not initialised in `__init__`), so reading it raises AttributeError. -/
structure SurvSlots : Type where
  pickedItem : Option String
  itemName : String
  addon0 : Option String
  addon1 : Option String
  addonName0 : String
  addonName1 : String
  deriving DecidableEq

/-- A freshly constructed `SurvivorDisplay`: no item was ever picked. -/
def survFreshSlots : SurvSlots :=
  { pickedItem := none, itemName := "", addon0 := none, addon1 := none,
    addonName0 := "", addonName1 := "" }

/-- The scoped add-on pool:
`[f for f in os.listdir(folder) if f.lower().endswith('.png')]`. -/
def survScopedFiles (env : SurvEnv) (item : String) : Except PyErr (List String) :=
  match env.addonDir item with
  | none => Except.error PyErr.fileNotFoundError
  | some listing => Except.ok (pngPool listing)

/-- Store a finalized add-on pick and its label into slot `idx`. -/
def setAddon (st : SurvSlots) (idx : Fin 2) (fn : String) : SurvSlots :=
  if idx = (0 : Fin 2) then
    { st with addon0 := some fn, addonName0 := format_perk_name fn }
  else
    { st with addon1 := some fn, addonName1 := format_perk_name fn }

/-- `SurvivorDisplay._reroll_addon(idx)`: draw one scoped add-on for slot
`idx` using the current `self._picked_item`. -/
def survRerollAddon (env : SurvEnv) (st : SurvSlots) (idx : Fin 2) (r : Nat) :
    Except PyErr (SurvSlots × List PickRecord) :=
  match st.pickedItem with
  | none => Except.error PyErr.attributeError
  | some item =>
    match survScopedFiles env item with
    | Except.error e => Except.error e
    | Except.ok files =>
      match randomChoice files r with
      | none => Except.error PyErr.indexError
      | some fn => Except.ok (setAddon st idx fn, [(SlotTag.addon, true)])

/-- `SurvivorDisplay._reroll_item`: pick a new item, record its root as
`self._picked_item`, then cascade `_reroll_addon` over both add-on slots. -/
def survRerollItem (env : SurvEnv) (st : SurvSlots) (f : Nat → Nat) :
    Except PyErr (SurvSlots × List PickRecord) :=
  match randomChoice env.items (f 0) with
  | none => Except.error PyErr.indexError
  | some choice =>
    let st1 : SurvSlots :=
      { st with itemName := format_perk_name choice,
                pickedItem := some (splitextRoot choice) }
    match survRerollAddon env st1 0 (f 1) with
    | Except.error e => Except.error e
    | Except.ok (st2, r2) =>
      match survRerollAddon env st2 1 (f 2) with
      | Except.error e => Except.error e
      | Except.ok (st3, r3) =>
        Except.ok (st3, (SlotTag.item, true) :: (r2 ++ r3))

/-- `SurvivorDisplay._animate_slot`, `slot_type == "addon"` branch: the
counter is bumped, then `self._picked_item` is read with no guard — a reroll
requested before any item was ever picked raises AttributeError on the very
first timer tick.  On the final tick the timer stops and `_reroll_addon`
finalizes the slot. -/
def survAddonSlotTick (env : SurvEnv) (st : SurvSlots) (idx : Fin 2)
    (cnt : Nat) (f : Nat → Nat) :
    Except PyErr (SurvSlots × Nat × List PickRecord) :=
  let cnt' := cnt + 1
  match st.pickedItem with
  | none => Except.error PyErr.attributeError
  | some item =>
    match survScopedFiles env item with
    | Except.error e => Except.error e
    | Except.ok files =>
      match randomChoice files (f 0) with
      | none => Except.error PyErr.indexError
      | some _ =>
        if cnt' > 20 then
          match survRerollAddon env st idx (f 1) with
          | Except.error e => Except.error e
          | Except.ok (st2, recs) =>
            Except.ok (st2, cnt', (SlotTag.addon, false) :: recs)
        else Except.ok (st, cnt', [(SlotTag.addon, false)])

/-! ## `FullSurvivorDisplay` (combined survivor scenario)

One state record collects the pick-bearing attributes of the widget and of
its embedded `PerkDisplay`.  Two timers drive it: `self._timer` (`_step`,
the phase sequencer) and `self.pd._timer` (`_animate_spin`, the perk spin),
modelled as two event kinds whose interleaving is arbitrary. -/

/-- Asset environment of `FullSurvivorDisplay`. -/
structure FullSurvEnv : Type where
  survivors : List String
  items : List String
  addonDir : String → Option (List String)
  perkFiles : List String

/-- Pick-bearing state of `FullSurvivorDisplay` plus its `PerkDisplay`. -/
structure FS : Type where
  timerActive : Bool
  phase : Nat
  cnt : Nat
  pickedSurvivor : Option String
  tempItem : Option String
  pickedItem : Option String
  addon0 : Option String
  addon1 : Option String
  pdActive : Bool
  pdCnt : Nat
  perksFinal : Option (List String)
  deriving DecidableEq

/-- A freshly built `FullSurvivorDisplay` right after `_start` ran: phase 1,
counters reset, add-on slots back to the placeholder, perk timer stopped. -/
def fsInit : FS :=
  { timerActive := true, phase := 1, cnt := 0, pickedSurvivor := none,
    tempItem := none, pickedItem := none, addon0 := none, addon1 := none,
    pdActive := false, pdCnt := 0, perksFinal := none }

/-- `PerkDisplay._animate_spin` as a reusable step: four animation draws per
tick; past `SPIN_STEPS` the timer stops and `_reveal_perks` samples four
distinct perks (ValueError — `none` of `pySample` — if fewer than 4 exist). -/
def perkSpinStep (perkFiles : List String) (active : Bool) (cnt : Nat)
    (f : Nat → Nat) :
    Except PyErr (Bool × Nat × Option (List String) × List PickRecord) :=
  if active = false then Except.ok (false, cnt, none, [])
  else
    let cnt' := cnt + 1
    match randomChoice perkFiles (f 0), randomChoice perkFiles (f 1),
          randomChoice perkFiles (f 2), randomChoice perkFiles (f 3) with
    | some _, some _, some _, some _ =>
      if cnt' > 20 then
        match pySample perkFiles 4 (fun n => f (n + 4)) with
        | none => Except.error PyErr.valueError
        | some picks =>
          Except.ok (false, cnt', some picks,
            List.replicate 4 (SlotTag.perk, false) ++
              List.replicate 4 (SlotTag.perk, true))
      else Except.ok (true, cnt', none, List.replicate 4 (SlotTag.perk, false))
    | _, _, _, _ => Except.error PyErr.indexError

/-- `FullSurvivorDisplay._step`: the phase sequencer.  Phases: 1 portrait,
2 item (finalizing resets the add-on slots), 3 the two add-ons (finalizing
samples `min(2, len(files))` distinct picks), 4 starts the perk spin and
stops this timer. -/
def fsSeqStep (env : FullSurvEnv) (st : FS) (f : Nat → Nat) :
    Except PyErr (FS × List PickRecord) :=
  if st.timerActive = false then Except.ok (st, [])
  else
    let cnt' := st.cnt + 1
    if st.phase = 1 then
      match randomChoice env.survivors (f 0) with
      | none => Except.error PyErr.indexError
      | some choice =>
        if 20 ≤ cnt' then
          Except.ok ({ st with
              cnt := 0, phase := 2,
              pickedSurvivor := some choice },
            [(SlotTag.portrait, false), (SlotTag.portrait, true)])
        else Except.ok ({ st with cnt := cnt' }, [(SlotTag.portrait, false)])
    else if st.phase = 2 then
      match randomChoice env.items (f 0) with
      | none => Except.error PyErr.indexError
      | some choice =>
        if 20 ≤ cnt' then
          Except.ok ({ st with
              cnt := 0, phase := 3, tempItem := some choice,
              addon0 := none, addon1 := none },
            [(SlotTag.item, false), (SlotTag.item, true)])
        else Except.ok ({ st with cnt := cnt' }, [(SlotTag.item, false)])
    else if st.phase = 3 then
      match st.tempItem with
      | none => Except.error PyErr.typeError
      | some t =>
        match env.addonDir (splitextRoot t) with
        | none => Except.error PyErr.fileNotFoundError
        | some listing =>
          let files := pngPool listing
          match randomChoice files (f 0), randomChoice files (f 1) with
          | some _, some _ =>
            if 20 ≤ cnt' then
              let picks := randomSample files (min 2 files.length)
                (fun n => f (n + 2))
              Except.ok ({ st with
                  cnt := 0, phase := 4,
                  addon0 := (match picks[0]? with
                             | some p => some p
                             | none => st.addon0),
                  addon1 := (match picks[1]? with
                             | some p => some p
                             | none => st.addon1) },
                (SlotTag.addon, false) :: (SlotTag.addon, false) ::
                  picks.map (fun _ => (SlotTag.addon, true)))
            else Except.ok ({ st with cnt := cnt' },
              [(SlotTag.addon, false), (SlotTag.addon, false)])
          | _, _ => Except.error PyErr.indexError
    else if st.phase = 4 then
      Except.ok ({ st with
          cnt := cnt', pdActive := true, pdCnt := 0,
          timerActive := false }, [])
    else Except.ok ({ st with cnt := cnt' }, [])

/-- The embedded `PerkDisplay` timer of `FullSurvivorDisplay`. -/
def fsPdStep (env : FullSurvEnv) (st : FS) (f : Nat → Nat) :
    Except PyErr (FS × List PickRecord) :=
  match perkSpinStep env.perkFiles st.pdActive st.pdCnt f with
  | Except.error e => Except.error e
  | Except.ok (act, cnt, rev, recs) =>
    Except.ok ({ st with
        pdActive := act, pdCnt := cnt,
        perksFinal := (match rev with
                       | some p => some p
                       | none => st.perksFinal) }, recs)

/-- The two timers of the combined survivor view. -/
inductive FSEv : Type where
  | seqT
  | pdT
  deriving DecidableEq

/-- One timer callback of `FullSurvivorDisplay`. -/
def fsStep (env : FullSurvEnv) (ev : FSEv) (st : FS) (f : Nat → Nat) :
    Except PyErr (FS × List PickRecord) :=
  match ev with
  | FSEv.seqT => fsSeqStep env st f
  | FSEv.pdT => fsPdStep env st f

/-- Store a finalized add-on pick into slot `idx` of the combined view. -/
def fsSetAddon (st : FS) (idx : Fin 2) (fn : String) : FS :=
  if idx = (0 : Fin 2) then { st with addon0 := some fn }
  else { st with addon1 := some fn }

/-- `FullSurvivorDisplay._reroll_addon(idx)`: the scoped folder is read from
the current `self._picked_item`; `os.path.join` with `None` raises
TypeError, a missing folder raises FileNotFoundError from `os.listdir`. -/
def fullRerollAddon (env : FullSurvEnv) (st : FS) (idx : Fin 2) (r : Nat) :
    Except PyErr (FS × List PickRecord) :=
  match st.pickedItem with
  | none => Except.error PyErr.typeError
  | some item =>
    match env.addonDir item with
    | none => Except.error PyErr.fileNotFoundError
    | some listing =>
      match randomChoice (pngPool listing) r with
      | none => Except.error PyErr.indexError
      | some fn => Except.ok (fsSetAddon st idx fn, [(SlotTag.addon, true)])

/-- `self._temp_item or random.choice(self.items)`: Python's `or` falls
through to a fresh draw when `_temp_item` is `None` or the empty string. -/
def fullItemPick (env : FullSurvEnv) (st : FS) (r : Nat) :
    Except PyErr String :=
  match st.tempItem with
  | some t => if t = "" then choiceExc env.items r else Except.ok t
  | none => choiceExc env.items r

/-- `FullSurvivorDisplay._reroll_item`: take `_temp_item` (or a fresh item
draw), set `self._picked_item` to the pick's root, then cascade both add-on
slots through `_reroll_addon`. -/
def fullRerollItem (env : FullSurvEnv) (st : FS) (f : Nat → Nat) :
    Except PyErr (FS × List PickRecord) :=
  match fullItemPick env st (f 0) with
  | Except.error e => Except.error e
  | Except.ok pick =>
    let st1 : FS := { st with pickedItem := some (splitextRoot pick) }
    match fullRerollAddon env st1 0 (f 1) with
    | Except.error e => Except.error e
    | Except.ok (st2, r2) =>
      match fullRerollAddon env st2 1 (f 2) with
      | Except.error e => Except.error e
      | Except.ok (st3, r3) =>
        Except.ok (st3, (SlotTag.item, true) :: (r2 ++ r3))

/-- `FullSurvivorDisplay._animate_slot_spin`, `spin_type == "addon"` branch:
the counter is bumped, and `if not self._picked_item:` stops the timer and
returns before anything is drawn or rendered — the guarded silent no-op. -/
def fullAddonSlotTick (env : FullSurvEnv) (st : FS) (idx : Fin 2)
    (cnt : Nat) (f : Nat → Nat) :
    Except PyErr (FS × Nat × List PickRecord) :=
  let cnt' := cnt + 1
  match st.pickedItem with
  | none => Except.ok (st, cnt', [])
  | some item =>
    if item = "" then Except.ok (st, cnt', [])
    else
      match env.addonDir item with
      | none => Except.error PyErr.fileNotFoundError
      | some listing =>
        match randomChoice (pngPool listing) (f 0) with
        | none => Except.error PyErr.indexError
        | some _ =>
          if 20 ≤ cnt' then
            match fullRerollAddon env st idx (f 1) with
            | Except.error e => Except.error e
            | Except.ok (st2, recs) =>
              Except.ok (st2, cnt', (SlotTag.addon, false) :: recs)
          else Except.ok (st, cnt', [(SlotTag.addon, false)])

/-! ## `KillerDisplay` and `FullDisplay` (killer scenarios) -/

/-- Asset environment of the killer scenarios.  `addonSub key` is the raw
listing of `images/killer_addons/<key>`, or `none` when `os.path.isdir`
fails; `allAddons` is the pooled walk over every subfolder that
`_animate_addons` rebuilds on each tick. -/
structure KillerEnv : Type where
  killer_files : List String
  allAddons : List String
  addonSub : String → Option (List String)
  perkFiles : List String

/-- `self.name_label.text().replace(" ", "")`: the folder key derived from
the displayed killer name. -/
def killerKey (nameText : String) : String :=
  String.mk (nameText.data.filter (fun c => !(c = ' ')))

/-- Pick-bearing state of a `KillerDisplay`.  `nameText = none` models the
cleared name label; `addonFiles = none` models `_addon_files` still holding
its initial `[None, None]` (never finalized by `_reveal_addons`). -/
structure KD : Type where
  pActive : Bool
  pCnt : Nat
  aActive : Bool
  aCnt : Nat
  nameText : Option String
  addonFiles : Option (List String)
  deriving DecidableEq

/-- `KillerDisplay._animate_portrait`: one draw per tick; past `SPIN_STEPS`
the timer stops, the name label is set and `_start_addons` fires. -/
def kdPortraitStep (env : KillerEnv) (kd : KD) (f : Nat → Nat) :
    Except PyErr (KD × List PickRecord) :=
  if kd.pActive = false then Except.ok (kd, [])
  else
    let cnt' := kd.pCnt + 1
    match randomChoice env.killer_files (f 0) with
    | none => Except.error PyErr.indexError
    | some pick =>
      if 20 < cnt' then
        Except.ok ({ kd with
            pActive := false, pCnt := cnt',
            nameText := some (format_perk_name pick),
            aActive := true, aCnt := 0 },
          [(SlotTag.portrait, false), (SlotTag.portrait, true)])
      else Except.ok ({ kd with pCnt := cnt' }, [(SlotTag.portrait, false)])

/-- `KillerDisplay._reveal_addons`: resolve the folder from the name label;
`if not os.path.isdir(folder): return` leaves the add-on slots
un-finalized; otherwise sample `min(2, len(files))` distinct picks. -/
def kdRevealAddons (env : KillerEnv) (kd : KD) (f : Nat → Nat) :
    KD × List PickRecord :=
  let key := killerKey (match kd.nameText with
                        | some s => s
                        | none => "")
  match env.addonSub key with
  | none => (kd, [])
  | some listing =>
    let files := pngPool listing
    let picks := randomSample files (min 2 files.length) f
    ({ kd with addonFiles := some picks },
      picks.map (fun _ => (SlotTag.addon, true)))

/-- `KillerDisplay._animate_addons`: animate both add-on icons from the
pooled walk of every subfolder; past `SPIN_STEPS` the timer stops and
`_reveal_addons` runs. -/
def kdAddonStep (env : KillerEnv) (kd : KD) (f : Nat → Nat) :
    Except PyErr (KD × List PickRecord) :=
  if kd.aActive = false then Except.ok (kd, [])
  else
    let cnt' := kd.aCnt + 1
    match randomChoice env.allAddons (f 0), randomChoice env.allAddons (f 1) with
    | some _, some _ =>
      if 20 < cnt' then
        let res := kdRevealAddons env { kd with aActive := false, aCnt := cnt' }
          (fun n => f (n + 2))
        Except.ok (res.1,
          (SlotTag.addon, false) :: (SlotTag.addon, false) :: res.2)
      else Except.ok ({ kd with aCnt := cnt' },
        [(SlotTag.addon, false), (SlotTag.addon, false)])
    | _, _ => Except.error PyErr.indexError

/-- State of a `FullDisplay` (killer combined view): the embedded
`KillerDisplay`, the embedded `PerkDisplay` spin, and the `_step` phase. -/
structure KF : Type where
  seqActive : Bool
  seqPhase : Nat
  kd : KD
  pdActive : Bool
  pdCnt : Nat
  perksFinal : Option (List String)
  deriving DecidableEq

/-- A fresh `FullDisplay` right after `_start`: phase 1, portrait timer
running (via `kd._start_portrait`), nothing picked yet. -/
def kfInit : KF :=
  { seqActive := true, seqPhase := 1,
    kd := { pActive := true, pCnt := 0, aActive := false, aCnt := 0,
            nameText := none, addonFiles := none },
    pdActive := false, pdCnt := 0, perksFinal := none }

/-- `FullDisplay._step`: advance a phase as soon as the relevant counter has
passed `SPIN_STEPS`; phase 2 starts the perk spin with no check that
`_reveal_addons` actually finalized the add-on slots. -/
def kfSeqStep (st : KF) : Except PyErr (KF × List PickRecord) :=
  if st.seqActive = false then Except.ok (st, [])
  else if st.seqPhase = 1 ∧ 20 < st.kd.pCnt then
    Except.ok ({ st with
        seqPhase := 2,
        kd := { st.kd with aActive := true, aCnt := 0 } }, [])
  else if st.seqPhase = 2 ∧ 20 < st.kd.aCnt then
    Except.ok ({ st with seqPhase := 3, pdActive := true, pdCnt := 0 }, [])
  else if st.seqPhase = 3 ∧ 20 < st.pdCnt then
    Except.ok ({ st with seqActive := false }, [])
  else Except.ok (st, [])

/-- The embedded `PerkDisplay` timer of `FullDisplay`. -/
def kfPdStep (env : KillerEnv) (st : KF) (f : Nat → Nat) :
    Except PyErr (KF × List PickRecord) :=
  match perkSpinStep env.perkFiles st.pdActive st.pdCnt f with
  | Except.error e => Except.error e
  | Except.ok (act, cnt, rev, recs) =>
    Except.ok ({ st with
        pdActive := act, pdCnt := cnt,
        perksFinal := (match rev with
                       | some p => some p
                       | none => st.perksFinal) }, recs)

/-- The four timers that can fire in a `FullDisplay`. -/
inductive KFEv : Type where
  | portraitT
  | addonT
  | seqT
  | pdT
  deriving DecidableEq

/-- One timer callback of `FullDisplay`. -/
def kfStep (env : KillerEnv) (ev : KFEv) (st : KF) (f : Nat → Nat) :
    Except PyErr (KF × List PickRecord) :=
  match ev with
  | KFEv.portraitT =>
    match kdPortraitStep env st.kd f with
    | Except.error e => Except.error e
    | Except.ok (kd', recs) => Except.ok ({ st with kd := kd' }, recs)
  | KFEv.addonT =>
    match kdAddonStep env st.kd f with
    | Except.error e => Except.error e
    | Except.ok (kd', recs) => Except.ok ({ st with kd := kd' }, recs)
  | KFEv.seqT => kfSeqStep st
  | KFEv.pdT => kfPdStep env st f

/-- Run a `FullDisplay` over a given interleaving of timer callbacks, with
the fixed random stream `0, 0, …`; an escaped exception aborts the run. -/
def kfRun (env : KillerEnv) : KF → List KFEv → Except PyErr (KF × List PickRecord)
  | st, [] => Except.ok (st, [])
  | st, ev :: rest =>
    match kfStep env ev st (fun _ => 0) with
    | Except.error e => Except.error e
    | Except.ok (st', recs) =>
      match kfRun env st' rest with
      | Except.error e => Except.error e
      | Except.ok (st'', recs') => Except.ok (st'', recs ++ recs')

/-- `KillerDisplay._reroll_addon(idx)`: resolve the scoped folder from the
name label, filter out the sibling slot's current file
(`pool = [f for f in files if f != other] or files` — the `or` falls back to
the unrestricted pool exactly when the exclusion left nothing), draw, and
store the new pick into `self._addon_files[idx]`. -/
def kdRerollAddon (env : KillerEnv) (nameText : Option String)
    (addonFiles : Option String × Option String) (idx : Fin 2) (r : Nat) :
    Except PyErr (Option String × Option String) :=
  let key := killerKey (match nameText with
                        | some s => s
                        | none => "")
  match env.addonSub key with
  | none => Except.ok addonFiles
  | some listing =>
    let files := pngPool listing
    let other := if idx = (0 : Fin 2) then addonFiles.2 else addonFiles.1
    let restricted := files.filter (fun g => !(decide (some g = other)))
    let pool := if restricted.isEmpty then files else restricted
    match randomChoice pool r with
    | none => Except.error PyErr.indexError
    | some fn =>
      if idx = (0 : Fin 2) then Except.ok (some fn, addonFiles.2)
      else Except.ok (addonFiles.1, some fn)

/-! ## Claim C1 -/

/-- C1: in every finalized phase whose slots draw from one shared pool (the
4 perk slots from the perk pool; the 2 add-on slots from the scoped add-on
pool, in both the survivor and the killer scenario), when the pool holds at
least as many candidates as there are slots, the finalized picks are
pairwise distinct members of that pool — they are sampled without
replacement. -/
theorem C1_shared_pool_finalized_picks_distinct
    (perkFiles allAdd kFiles : List String) (f g h' : Nat → Nat)
    (hpn : perkFiles.Nodup) (hp : 4 ≤ perkFiles.length)
    (han : allAdd.Nodup) (ha : 2 ≤ allAdd.length)
    (hkn : kFiles.Nodup) (hk : 2 ≤ kFiles.length) :
    (∃ picks, reveal_perks perkFiles f = some picks ∧ picks.Nodup ∧
      picks.length = 4 ∧ ∀ x ∈ picks, x ∈ perkFiles) ∧
    (∃ picks, survivorAddonFinal allAdd g = some picks ∧ picks.Nodup ∧
      picks.length = 2 ∧ ∀ x ∈ picks, x ∈ allAdd) ∧
    ((clampedAddonFinal kFiles h').Nodup ∧
      (clampedAddonFinal kFiles h').length = 2 ∧
      ∀ x ∈ clampedAddonFinal kFiles h', x ∈ kFiles) := by
  have hclamp : clampedAddonFinal kFiles h' = randomSample kFiles 2 h' := by
    unfold clampedAddonFinal
    rw [Nat.min_eq_left hk]
  refine ⟨⟨randomSample perkFiles 4 f, ?_, ?_, ?_, ?_⟩,
    ⟨randomSample allAdd 2 g, ?_, ?_, ?_, ?_⟩, ?_, ?_, ?_⟩
  · unfold reveal_perks pySample
    rw [if_pos hp]
  · exact randomSample_nodup 4 perkFiles f hpn
  · exact randomSample_length 4 perkFiles f hp
  · exact fun x hx => randomSample_subset 4 perkFiles f x hx
  · unfold survivorAddonFinal pySample
    rw [if_pos ha]
  · exact randomSample_nodup 2 allAdd g han
  · exact randomSample_length 2 allAdd g ha
  · exact fun x hx => randomSample_subset 2 allAdd g x hx
  · rw [hclamp]
    exact randomSample_nodup 2 kFiles h' hkn
  · rw [hclamp]
    exact randomSample_length 2 kFiles h' hk
  · rw [hclamp]
    exact fun x hx => randomSample_subset 2 kFiles h' x hx

/-- Witness for C1 at concrete pools of exactly the slot counts. -/
theorem C1_witness :
    (∃ picks, reveal_perks ["a.png", "b.png", "c.png", "d.png"] (fun _ => 0) =
        some picks ∧ picks.Nodup ∧ picks.length = 4 ∧
        ∀ x ∈ picks, x ∈ ["a.png", "b.png", "c.png", "d.png"]) ∧
    (∃ picks, survivorAddonFinal ["x.png", "y.png"] (fun _ => 0) = some picks ∧
      picks.Nodup ∧ picks.length = 2 ∧ ∀ x ∈ picks, x ∈ ["x.png", "y.png"]) ∧
    ((clampedAddonFinal ["k1.png", "k2.png"] (fun _ => 0)).Nodup ∧
      (clampedAddonFinal ["k1.png", "k2.png"] (fun _ => 0)).length = 2 ∧
      ∀ x ∈ clampedAddonFinal ["k1.png", "k2.png"] (fun _ => 0),
        x ∈ ["k1.png", "k2.png"]) :=
  C1_shared_pool_finalized_picks_distinct
    ["a.png", "b.png", "c.png", "d.png"] ["x.png", "y.png"] ["k1.png", "k2.png"]
    (fun _ => 0) (fun _ => 0) (fun _ => 0)
    (by decide) (by decide) (by decide) (by decide) (by decide) (by decide)

/-! ## Claim C4 -/

/-- C4 counterexample: with a 3-file perk pool, `PerkDisplay._reveal_perks`
calls `random.sample(perk_files, 4)` with no clamp, which raises ValueError
(`none` here) instead of returning the full pool; likewise
`SurvivorDisplay._animate` finalizes add-ons with `random.sample(all_add, 2)`
unclamped, which fails on a 1-file pool. -/
theorem C4_counterexample :
    reveal_perks ["a.png", "b.png", "c.png"] (fun _ => 0) = none ∧
    survivorAddonFinal ["x.png"] (fun _ => 0) = none := by
  exact ⟨rfl, rfl⟩

/-- C4 (amended): only the dependent add-on finalizations of
`FullSurvivorDisplay._step` and `KillerDisplay._reveal_addons` clamp the
sample size with `min(2, len(files))`, and there the finalized picks are the
full pool, without duplicates and without failing; the perk reveal
(`PerkDisplay._reveal_perks`) and the standalone survivor add-on
finalization (`SurvivorDisplay._animate`) do not clamp and raise ValueError
whenever the pool is smaller than the slot count. -/
theorem C4_amended_clamp_only_in_addon_finalizations
    (files pool4 pool2 : List String) (f g h' : Nat → Nat)
    (hnd : files.Nodup) (hlt : files.length < 2)
    (h4 : pool4.length < 4) (h2 : pool2.length < 2) :
    (clampedAddonFinal files f).Perm files ∧
    (clampedAddonFinal files f).Nodup ∧
    reveal_perks pool4 g = none ∧
    survivorAddonFinal pool2 h' = none := by
  have hmin : min 2 files.length = files.length := Nat.min_eq_right (by omega)
  have hperm : (clampedAddonFinal files f).Perm files := by
    unfold clampedAddonFinal
    rw [hmin]
    exact randomSample_perm files.length files f rfl
  refine ⟨hperm, hperm.nodup_iff.mpr hnd, ?_, ?_⟩
  · unfold reveal_perks pySample
    rw [if_neg (by omega)]
  · unfold survivorAddonFinal pySample
    rw [if_neg (by omega)]

/-- Witness for the amended C4 at a one-file add-on pool and undersized
perk/add-on pools. -/
theorem C4_witness :
    (clampedAddonFinal ["only.png"] (fun _ => 0)).Perm ["only.png"] ∧
    (clampedAddonFinal ["only.png"] (fun _ => 0)).Nodup ∧
    reveal_perks ["a.png", "b.png", "c.png"] (fun _ => 0) = none ∧
    survivorAddonFinal ["x.png"] (fun _ => 0) = none :=
  C4_amended_clamp_only_in_addon_finalizations
    ["only.png"] ["a.png", "b.png", "c.png"] ["x.png"]
    (fun _ => 0) (fun _ => 0) (fun _ => 0)
    (by decide) (by decide) (by decide) (by decide)

/-! ## Claim C5 -/

/-- C5 counterexample: a draw on an empty perk pool makes
`PerkDisplay._animate_spin` raise IndexError out of the timer callback, and
`main.excepthook` then terminates the process with exit code 1 — the slot's
tick is not recovered locally and the sequence does not continue. -/
theorem C5_counterexample :
    animate_spin [] 0 (fun _ => 0) = Except.error PyErr.indexError ∧
    pyExcepthook (animate_spin [] 0 (fun _ => 0)) = ProcOutcome.exited 1 := by
  exact ⟨rfl, rfl⟩

/-- C5 (amended): a draw on an empty pool is not recovered locally — the
animation tick raises IndexError, the installed `excepthook` prints the
traceback and exits the process with code 1, and no slot continues.  With a
nonempty pool a pure animation tick (counter still at or below `SPIN_STEPS`)
succeeds and the process keeps running, but the finalizing tick then calls
`_reveal_perks`, whose unclamped `random.sample` raises ValueError — also
exiting the process — whenever the pool holds fewer than 4 files; only with
at least 4 files does the finalizing tick complete. -/
theorem C5_amended_empty_pool_exits_process
    (pool : List String) (cnt : Nat) (f : Nat → Nat) :
    (pool = [] → animate_spin pool cnt f = Except.error PyErr.indexError ∧
      pyExcepthook (animate_spin pool cnt f) = ProcOutcome.exited 1) ∧
    (pool ≠ [] → ¬ (cnt + 1 > 20) → animate_spin pool cnt f =
        Except.ok (cnt + 1, List.replicate 4 (SlotTag.perk, false)) ∧
      pyExcepthook (animate_spin pool cnt f) = ProcOutcome.running) ∧
    (pool ≠ [] → cnt + 1 > 20 → pool.length < 4 →
      animate_spin pool cnt f = Except.error PyErr.valueError ∧
      pyExcepthook (animate_spin pool cnt f) = ProcOutcome.exited 1) ∧
    (pool ≠ [] → cnt + 1 > 20 → 4 ≤ pool.length →
      animate_spin pool cnt f =
        Except.ok (cnt + 1, List.replicate 4 (SlotTag.perk, false) ++
          List.replicate 4 (SlotTag.perk, true)) ∧
      pyExcepthook (animate_spin pool cnt f) = ProcOutcome.running) := by
  refine ⟨?_, ?_, ?_, ?_⟩
  · intro h
    subst h
    exact ⟨rfl, rfl⟩
  · intro h hcnt
    obtain ⟨a0, h0, _⟩ := randomChoice_isSome pool (f 0) h
    obtain ⟨a1, h1, _⟩ := randomChoice_isSome pool (f 1) h
    obtain ⟨a2, h2, _⟩ := randomChoice_isSome pool (f 2) h
    obtain ⟨a3, h3, _⟩ := randomChoice_isSome pool (f 3) h
    have hok : animate_spin pool cnt f =
        Except.ok (cnt + 1, List.replicate 4 (SlotTag.perk, false)) := by
      unfold animate_spin
      simp only [h0, h1, h2, h3]
      rw [if_neg hcnt]
    refine ⟨hok, ?_⟩
    rw [hok]
    rfl
  · intro h hcnt hlt
    obtain ⟨a0, h0, _⟩ := randomChoice_isSome pool (f 0) h
    obtain ⟨a1, h1, _⟩ := randomChoice_isSome pool (f 1) h
    obtain ⟨a2, h2, _⟩ := randomChoice_isSome pool (f 2) h
    obtain ⟨a3, h3, _⟩ := randomChoice_isSome pool (f 3) h
    have hsam : pySample pool 4 (fun n => f (n + 4)) = none := by
      unfold pySample
      rw [if_neg (by omega)]
    have herr : animate_spin pool cnt f = Except.error PyErr.valueError := by
      unfold animate_spin
      simp only [h0, h1, h2, h3]
      rw [if_pos hcnt, hsam]
    refine ⟨herr, ?_⟩
    rw [herr]
    rfl
  · intro h hcnt hge
    obtain ⟨a0, h0, _⟩ := randomChoice_isSome pool (f 0) h
    obtain ⟨a1, h1, _⟩ := randomChoice_isSome pool (f 1) h
    obtain ⟨a2, h2, _⟩ := randomChoice_isSome pool (f 2) h
    obtain ⟨a3, h3, _⟩ := randomChoice_isSome pool (f 3) h
    have hsam : pySample pool 4 (fun n => f (n + 4)) =
        some (randomSample pool 4 (fun n => f (n + 4))) := by
      unfold pySample
      rw [if_pos hge]
    have hok : animate_spin pool cnt f =
        Except.ok (cnt + 1, List.replicate 4 (SlotTag.perk, false) ++
          List.replicate 4 (SlotTag.perk, true)) := by
      unfold animate_spin
      simp only [h0, h1, h2, h3]
      rw [if_pos hcnt, hsam]
    refine ⟨hok, ?_⟩
    rw [hok]
    rfl

/-- Witness for the amended C5: the empty pool exits the process at once; a
singleton pool animates on an early tick; a 3-file pool crashes with
ValueError on the finalizing tick; a 4-file pool finalizes. -/
theorem C5_witness :
    (animate_spin [] 0 (fun _ => 0) = Except.error PyErr.indexError ∧
      pyExcepthook (animate_spin [] 0 (fun _ => 0)) = ProcOutcome.exited 1) ∧
    (animate_spin ["a.png"] 0 (fun _ => 0) =
        Except.ok (0 + 1, List.replicate 4 (SlotTag.perk, false)) ∧
      pyExcepthook (animate_spin ["a.png"] 0 (fun _ => 0)) =
        ProcOutcome.running) ∧
    (animate_spin ["a.png", "b.png", "c.png"] 20 (fun _ => 0) =
        Except.error PyErr.valueError ∧
      pyExcepthook (animate_spin ["a.png", "b.png", "c.png"] 20 (fun _ => 0)) =
        ProcOutcome.exited 1) ∧
    (animate_spin ["a.png", "b.png", "c.png", "d.png"] 20 (fun _ => 0) =
        Except.ok (20 + 1, List.replicate 4 (SlotTag.perk, false) ++
          List.replicate 4 (SlotTag.perk, true)) ∧
      pyExcepthook
          (animate_spin ["a.png", "b.png", "c.png", "d.png"] 20 (fun _ => 0)) =
        ProcOutcome.running) :=
  ⟨(C5_amended_empty_pool_exits_process [] 0 (fun _ => 0)).1 rfl,
    (C5_amended_empty_pool_exits_process ["a.png"] 0 (fun _ => 0)).2.1
      (by decide) (by decide),
    (C5_amended_empty_pool_exits_process ["a.png", "b.png", "c.png"] 20
      (fun _ => 0)).2.2.1 (by decide) (by decide) (by decide),
    (C5_amended_empty_pool_exits_process ["a.png", "b.png", "c.png", "d.png"]
      20 (fun _ => 0)).2.2.2 (by decide) (by decide) (by decide)⟩

/-! ## Claim C7 -/

/-- C7 counterexample: the label function does not map `"NOED.png"` to
`"NOED"` — the regex inserts a space before every internal capital, so an
all-caps filename is spread out. -/
theorem C7_counterexample : ¬ (format_perk_name "NOED.png" = "NOED") := by
  decide

/-- C7 (amended): the label function is total (it is a pure function built
from `splitext`, `replace`, `re.sub` and `upper`) and satisfies
`label("DeadHard.png") = "DEAD HARD"`, `label("dead_hard.png") = "DEAD HARD"`
and — because a boundary is inserted before *every* internal uppercase
letter — `label("NOED.png") = "N O E D"`, not `"NOED"`. -/
theorem C7_amended_label_examples :
    format_perk_name "DeadHard.png" = "DEAD HARD" ∧
    format_perk_name "dead_hard.png" = "DEAD HARD" ∧
    format_perk_name "NOED.png" = "N O E D" := by
  exact ⟨rfl, rfl, rfl⟩

/-! ## Claim C8 -/

/-- C8 counterexample: `"DEAD"` is a space-split token of
`label("DeadHard.png") = "DEAD HARD"`, but re-applying the label function to
it yields `"D E A D"`, not `"DEAD"` — the re-split idempotence fails for any
token with an internal capital letter. -/
theorem C8_counterexample :
    "DEAD" ∈ splitOnSpaceStr (format_perk_name "DeadHard.png") ∧
    ¬ (format_perk_name "DEAD" = "DEAD") := by
  exact ⟨by decide, by decide⟩

/-- C8 (amended): re-applying the label function to a space-split token of
its output reproduces the token only when the token contains no dot (so
`splitext` strips nothing) and no capital letter after its first character
(so the regex inserts nothing); such tokens are fixed points.  Tokens with
internal capitals — which uppercasing produces from every multi-letter
word — are split further, so the unconditional re-split idempotence claimed
does not hold. -/
theorem C8_amended_token_fixed_without_internal_caps
    (s t : String) (ht : t ∈ splitOnSpaceStr (format_perk_name s))
    (hdot : ∀ c ∈ t.data, ¬ c = '.')
    (hup : noInternalUpper t.data = true) :
    format_perk_name t = t := by
  rcases List.mem_map.mp ht with ⟨l, hl, hlt⟩
  have hdata : t.data = l := by rw [← hlt]
  have hfix : formatPerkNameChars l = l := by
    apply formatPerkNameChars_token_fixed s.data l hl
    · intro c hc
      exact hdot c (by rw [hdata]; exact hc)
    · rw [← hdata]
      exact hup
  show String.mk (formatPerkNameChars t.data) = t
  rw [hdata, hfix, hlt]

/-- Witness for the amended C8: the single-letter token `"A"` of
`label("a_b.png") = "A B"` is a fixed point. -/
theorem C8_witness : format_perk_name "A" = "A" :=
  C8_amended_token_fixed_without_internal_caps "a_b.png" "A"
    (by decide) (by decide) (by decide)

/-! ## Claim C9 -/

/-- C9 counterexample: the perk pool applies no extension filter — a
non-`.png` directory entry stays in the pool (only the placeholder prefix
is excluded). -/
theorem C9_counterexample :
    "notes.txt" ∈ perkPool ["notes.txt", "A.png"] ∧
    endsPng "notes.txt" = false := by
  exact ⟨by decide, rfl⟩

/-- C9 (amended): the pools apply one filter each, not both — the perk pool
is the directory listing minus entries starting with `"helpLoading"` (no
extension filter), while the portrait, item and add-on pools are the listing
restricted to names whose lowercase form ends in `".png"` (no placeholder
exclusion). -/
theorem C9_amended_pool_filters (listing : List String) (fl : String) :
    (fl ∈ perkPool listing ↔
      fl ∈ listing ∧ fl.startsWith "helpLoading" = false) ∧
    (fl ∈ pngPool listing ↔ fl ∈ listing ∧ endsPng fl = true) := by
  constructor
  · rw [perkPool, List.mem_filter]
    simp [Bool.not_eq_true']
  · rw [pngPool, List.mem_filter]

/-! ## Claim C2 -/

theorem survRerollAddon_ok0 {env : SurvEnv} {st st' : SurvSlots} {r : Nat}
    {recs : List PickRecord}
    (h : survRerollAddon env st 0 r = Except.ok (st', recs)) :
    ∃ item listing fn, st.pickedItem = some item ∧
      env.addonDir item = some listing ∧ fn ∈ pngPool listing ∧
      st'.addon0 = some fn ∧ st'.addon1 = st.addon1 ∧
      st'.pickedItem = st.pickedItem := by
  unfold survRerollAddon at h
  cases hpi : st.pickedItem with
  | none => simp only [hpi] at h; cases h
  | some item =>
    simp only [hpi] at h
    have hsf : ∀ listing, env.addonDir item = some listing →
        survScopedFiles env item = Except.ok (pngPool listing) := by
      intro listing hd
      unfold survScopedFiles
      rw [hd]
    cases hdir : env.addonDir item with
    | none =>
      have : survScopedFiles env item = Except.error PyErr.fileNotFoundError := by
        unfold survScopedFiles
        rw [hdir]
      simp only [this] at h
      cases h
    | some listing =>
      simp only [hsf listing hdir] at h
      cases hc : randomChoice (pngPool listing) r with
      | none => simp only [hc] at h; cases h
      | some fn =>
        simp only [hc, Except.ok.injEq, Prod.mk.injEq] at h
        obtain ⟨hst, -⟩ := h
        subst hst
        exact ⟨item, listing, fn, rfl, hdir, randomChoice_mem hc, rfl, rfl, hpi⟩

theorem survRerollAddon_ok1 {env : SurvEnv} {st st' : SurvSlots} {r : Nat}
    {recs : List PickRecord}
    (h : survRerollAddon env st 1 r = Except.ok (st', recs)) :
    ∃ item listing fn, st.pickedItem = some item ∧
      env.addonDir item = some listing ∧ fn ∈ pngPool listing ∧
      st'.addon1 = some fn ∧ st'.addon0 = st.addon0 ∧
      st'.pickedItem = st.pickedItem := by
  unfold survRerollAddon at h
  cases hpi : st.pickedItem with
  | none => simp only [hpi] at h; cases h
  | some item =>
    simp only [hpi] at h
    cases hdir : env.addonDir item with
    | none =>
      have : survScopedFiles env item = Except.error PyErr.fileNotFoundError := by
        unfold survScopedFiles
        rw [hdir]
      simp only [this] at h
      cases h
    | some listing =>
      have hsf : survScopedFiles env item = Except.ok (pngPool listing) := by
        unfold survScopedFiles
        rw [hdir]
      simp only [hsf] at h
      cases hc : randomChoice (pngPool listing) r with
      | none => simp only [hc] at h; cases h
      | some fn =>
        simp only [hc, Except.ok.injEq, Prod.mk.injEq] at h
        obtain ⟨hst, -⟩ := h
        subst hst
        exact ⟨item, listing, fn, rfl, hdir, randomChoice_mem hc, rfl, rfl, hpi⟩

theorem fullRerollAddon_ok0 {env : FullSurvEnv} {st st' : FS} {r : Nat}
    {recs : List PickRecord}
    (h : fullRerollAddon env st 0 r = Except.ok (st', recs)) :
    ∃ item listing fn, st.pickedItem = some item ∧
      env.addonDir item = some listing ∧ fn ∈ pngPool listing ∧
      st'.addon0 = some fn ∧ st'.addon1 = st.addon1 ∧
      st'.pickedItem = st.pickedItem := by
  unfold fullRerollAddon at h
  cases hpi : st.pickedItem with
  | none => simp only [hpi] at h; cases h
  | some item =>
    simp only [hpi] at h
    cases hdir : env.addonDir item with
    | none => simp only [hdir] at h; cases h
    | some listing =>
      simp only [hdir] at h
      cases hc : randomChoice (pngPool listing) r with
      | none => simp only [hc] at h; cases h
      | some fn =>
        simp only [hc, Except.ok.injEq, Prod.mk.injEq] at h
        obtain ⟨hst, -⟩ := h
        subst hst
        exact ⟨item, listing, fn, rfl, hdir, randomChoice_mem hc, rfl, rfl, hpi⟩

theorem fullRerollAddon_ok1 {env : FullSurvEnv} {st st' : FS} {r : Nat}
    {recs : List PickRecord}
    (h : fullRerollAddon env st 1 r = Except.ok (st', recs)) :
    ∃ item listing fn, st.pickedItem = some item ∧
      env.addonDir item = some listing ∧ fn ∈ pngPool listing ∧
      st'.addon1 = some fn ∧ st'.addon0 = st.addon0 ∧
      st'.pickedItem = st.pickedItem := by
  unfold fullRerollAddon at h
  cases hpi : st.pickedItem with
  | none => simp only [hpi] at h; cases h
  | some item =>
    simp only [hpi] at h
    cases hdir : env.addonDir item with
    | none => simp only [hdir] at h; cases h
    | some listing =>
      simp only [hdir] at h
      cases hc : randomChoice (pngPool listing) r with
      | none => simp only [hc] at h; cases h
      | some fn =>
        simp only [hc, Except.ok.injEq, Prod.mk.injEq] at h
        obtain ⟨hst, -⟩ := h
        subst hst
        exact ⟨item, listing, fn, rfl, hdir, randomChoice_mem hc, rfl, rfl, hpi⟩

/-- C2: for every successful single-slot reroll of the item — the slot the
two add-on slots depend on — the cascade leaves both add-on picks members of
the add-on pool scoped to the *new* `self._picked_item`; the cascaded
`_reroll_addon` calls re-read the freshly assigned parent pick, so a pick
from the old scope cannot survive.  This holds in `SurvivorDisplay` and in
`FullSurvivorDisplay`. -/
theorem C2_item_reroll_cascades_into_new_pool
    (envS : SurvEnv) (envF : FullSurvEnv) :
    (∀ st f st' recs, survRerollItem envS st f = Except.ok (st', recs) →
      ∃ item listing, st'.pickedItem = some item ∧
        envS.addonDir item = some listing ∧
        (∃ a0, st'.addon0 = some a0 ∧ a0 ∈ pngPool listing) ∧
        (∃ a1, st'.addon1 = some a1 ∧ a1 ∈ pngPool listing)) ∧
    (∀ st f st' recs, fullRerollItem envF st f = Except.ok (st', recs) →
      ∃ item listing, st'.pickedItem = some item ∧
        envF.addonDir item = some listing ∧
        (∃ a0, st'.addon0 = some a0 ∧ a0 ∈ pngPool listing) ∧
        (∃ a1, st'.addon1 = some a1 ∧ a1 ∈ pngPool listing)) := by
  constructor
  · intro st f st' recs h
    unfold survRerollItem at h
    cases hc : randomChoice envS.items (f 0) with
    | none => simp only [hc] at h; cases h
    | some choice =>
      simp only [hc] at h
      cases ha : survRerollAddon envS
          { st with itemName := format_perk_name choice,
                    pickedItem := some (splitextRoot choice) } 0 (f 1) with
      | error e => simp only [ha] at h; cases h
      | ok p =>
        obtain ⟨st2, recs2⟩ := p
        simp only [ha] at h
        cases hb : survRerollAddon envS st2 1 (f 2) with
        | error e => simp only [hb] at h; cases h
        | ok q =>
          obtain ⟨st3, recs3⟩ := q
          simp only [hb, Except.ok.injEq, Prod.mk.injEq] at h
          obtain ⟨hst, -⟩ := h
          subst hst
          rcases survRerollAddon_ok0 ha with
            ⟨item1, l1, fn1, hpi1, hd1, hm1, ha0, ha1, hapick⟩
          rcases survRerollAddon_ok1 hb with
            ⟨item2, l2, fn2, hpi2, hd2, hm2, hb1, hb0, hbpick⟩
          have hitems : item2 = item1 := by
            rw [hapick, hpi1] at hpi2
            injection hpi2 with h2
            exact h2.symm
          have hls : l2 = l1 := by
            rw [hitems, hd1] at hd2
            injection hd2 with h2
            exact h2.symm
          refine ⟨item2, l2, ?_, hd2, ⟨fn1, ?_, ?_⟩, ⟨fn2, hb1, hm2⟩⟩
          · rw [hbpick, hapick, hpi1, hitems]
          · rw [hb0, ha0]
          · rw [hls]
            exact hm1
  · intro st f st' recs h
    unfold fullRerollItem at h
    cases hc : fullItemPick envF st (f 0) with
    | error e => simp only [hc] at h; cases h
    | ok pick =>
      simp only [hc] at h
      cases ha : fullRerollAddon envF
          { st with pickedItem := some (splitextRoot pick) } 0 (f 1) with
      | error e => simp only [ha] at h; cases h
      | ok p =>
        obtain ⟨st2, recs2⟩ := p
        simp only [ha] at h
        cases hb : fullRerollAddon envF st2 1 (f 2) with
        | error e => simp only [hb] at h; cases h
        | ok q =>
          obtain ⟨st3, recs3⟩ := q
          simp only [hb, Except.ok.injEq, Prod.mk.injEq] at h
          obtain ⟨hst, -⟩ := h
          subst hst
          rcases fullRerollAddon_ok0 ha with
            ⟨item1, l1, fn1, hpi1, hd1, hm1, ha0, ha1, hapick⟩
          rcases fullRerollAddon_ok1 hb with
            ⟨item2, l2, fn2, hpi2, hd2, hm2, hb1, hb0, hbpick⟩
          have hitems : item2 = item1 := by
            rw [hapick, hpi1] at hpi2
            injection hpi2 with h2
            exact h2.symm
          have hls : l2 = l1 := by
            rw [hitems, hd1] at hd2
            injection hd2 with h2
            exact h2.symm
          refine ⟨item2, l2, ?_, hd2, ⟨fn1, ?_, ?_⟩, ⟨fn2, hb1, hm2⟩⟩
          · rw [hbpick, hapick, hpi1, hitems]
          · rw [hb0, ha0]
          · rw [hls]
            exact hm1

/-! Concrete demonstration environments shared by the witnesses below. -/

/-- A small survivor asset environment. -/
def survDemoEnv : SurvEnv :=
  { portraits := ["Dwight.png"], items := ["Medkit.png"],
    addonDir := fun item =>
      if item = "Medkit" then some ["m1.png", "m2.png"] else none }

/-- A small combined-survivor asset environment. -/
def fullDemoEnv : FullSurvEnv :=
  { survivors := ["Dwight.png"], items := ["Medkit.png"],
    addonDir := fun item =>
      if item = "Medkit" then some ["m1.png", "m2.png"] else none,
    perkFiles := ["p1.png", "p2.png", "p3.png", "p4.png"] }

/-- The survivor state after rerolling the item in `survDemoEnv` with the
all-zero random stream. -/
def survDemoAfter : SurvSlots :=
  { pickedItem := some "Medkit", itemName := "MEDKIT",
    addon0 := some "m1.png", addon1 := some "m1.png",
    addonName0 := "M1", addonName1 := "M1" }

/-- The combined-survivor state after rerolling the item from `fsInit`. -/
def fullDemoAfter : FS :=
  { fsInit with pickedItem := some "Medkit",
                addon0 := some "m1.png", addon1 := some "m1.png" }

/-- Witness for C2 on the concrete demo environments. -/
theorem C2_witness :
    (∃ item listing, survDemoAfter.pickedItem = some item ∧
      survDemoEnv.addonDir item = some listing ∧
      (∃ a0, survDemoAfter.addon0 = some a0 ∧ a0 ∈ pngPool listing) ∧
      (∃ a1, survDemoAfter.addon1 = some a1 ∧ a1 ∈ pngPool listing)) ∧
    (∃ item listing, fullDemoAfter.pickedItem = some item ∧
      fullDemoEnv.addonDir item = some listing ∧
      (∃ a0, fullDemoAfter.addon0 = some a0 ∧ a0 ∈ pngPool listing) ∧
      (∃ a1, fullDemoAfter.addon1 = some a1 ∧ a1 ∈ pngPool listing)) :=
  ⟨(C2_item_reroll_cascades_into_new_pool survDemoEnv fullDemoEnv).1
      survFreshSlots (fun _ => 0) survDemoAfter
      [(SlotTag.item, true), (SlotTag.addon, true), (SlotTag.addon, true)] rfl,
    (C2_item_reroll_cascades_into_new_pool survDemoEnv fullDemoEnv).2
      fsInit (fun _ => 0) fullDemoAfter
      [(SlotTag.item, true), (SlotTag.addon, true), (SlotTag.addon, true)] rfl⟩

/-! ## Claim C3 -/

/-- C3 counterexample: in `SurvivorDisplay`, requesting an add-on reroll
before any item was ever picked is *not* a silent no-op — the first timer
tick of `_animate_slot` reads the never-assigned `self._picked_item` and
raises AttributeError. -/
theorem C3_counterexample :
    survAddonSlotTick survDemoEnv survFreshSlots 0 0 (fun _ => 0) =
      Except.error PyErr.attributeError := rfl

/-- C3 (amended): only `FullSurvivorDisplay` guards the dependent reroll —
`_animate_slot_spin` checks `if not self._picked_item:` and stops the timer,
leaving every slot pick unchanged and emitting nothing; in the standalone
`SurvivorDisplay` the same request raises AttributeError instead, because
`_animate_slot` reads `self._picked_item` without a guard and the attribute
is never initialised. -/
theorem C3_amended_noop_only_in_full_view
    (envF : FullSurvEnv) (envS : SurvEnv) :
    (∀ st idx cnt f, st.pickedItem = none →
      fullAddonSlotTick envF st idx cnt f = Except.ok (st, cnt + 1, [])) ∧
    (∀ st idx cnt f, st.pickedItem = none →
      survAddonSlotTick envS st idx cnt f =
        Except.error PyErr.attributeError) := by
  constructor
  · intro st idx cnt f h
    unfold fullAddonSlotTick
    simp only [h]
  · intro st idx cnt f h
    unfold survAddonSlotTick
    simp only [h]

/-- Witness for the amended C3 at concrete states. -/
theorem C3_witness :
    fullAddonSlotTick fullDemoEnv fsInit 0 0 (fun _ => 0) =
      Except.ok (fsInit, 0 + 1, []) ∧
    survAddonSlotTick survDemoEnv survFreshSlots 1 5 (fun _ => 0) =
      Except.error PyErr.attributeError :=
  ⟨(C3_amended_noop_only_in_full_view fullDemoEnv survDemoEnv).1
      fsInit 0 0 (fun _ => 0) rfl,
    (C3_amended_noop_only_in_full_view fullDemoEnv survDemoEnv).2
      survFreshSlots 1 5 (fun _ => 0) rfl⟩

/-! ## Claim C10 -/

/-- In a duplicate-free pool with at least two entries there is always an
entry different from any given sibling pick. -/
theorem exists_mem_ne {l : List String} (hnd : l.Nodup) (h2 : 2 ≤ l.length)
    (o : Option String) : ∃ x, x ∈ l ∧ ¬ (some x = o) := by
  cases l with
  | nil => simp at h2
  | cons a t =>
    cases t with
    | nil => simp at h2
    | cons b rest =>
      have hab : a ≠ b := by
        intro he
        exact (List.nodup_cons.mp hnd).1 (he ▸ List.mem_cons_self _ _)
      cases o with
      | none => exact ⟨a, List.mem_cons_self _ _, by simp⟩
      | some ov =>
        by_cases ha : a = ov
        · refine ⟨b, List.mem_cons_of_mem _ (List.mem_cons_self _ _), ?_⟩
          simp only [Option.some.injEq]
          intro hb
          exact hab (ha.trans hb.symm)
        · exact ⟨a, List.mem_cons_self _ _, by simp [ha]⟩

/-- C10: `KillerDisplay._reroll_addon` draws from the scoped pool with the
sibling slot's current file excluded, falling back to the unrestricted pool
only when the exclusion empties it; with a duplicate-free scoped pool of at
least two candidates the exclusion is never empty, so the fresh pick always
differs from the sibling and the two add-on picks end up pairwise
distinct. -/
theorem C10_killer_addon_reroll_excludes_sibling
    (env : KillerEnv) (name : String) (af : Option String × Option String)
    (idx : Fin 2) (r : Nat) (listing : List String)
    (hdir : env.addonSub (killerKey name) = some listing)
    (hnd : (pngPool listing).Nodup) (h2 : 2 ≤ (pngPool listing).length) :
    ∃ fn af', kdRerollAddon env (some name) af idx r = Except.ok af' ∧
      fn ∈ pngPool listing ∧
      ¬ (some fn = (if idx = (0 : Fin 2) then af.2 else af.1)) ∧
      af' = (if idx = (0 : Fin 2) then (some fn, af.2) else (af.1, some fn)) ∧
      ¬ (af'.1 = af'.2) := by
  obtain ⟨x, hx, hxo⟩ := exists_mem_ne hnd h2
    (if idx = (0 : Fin 2) then af.2 else af.1)
  have hxr : x ∈ (pngPool listing).filter
      (fun g => !(decide (some g = (if idx = (0 : Fin 2) then af.2 else af.1)))) :=
    List.mem_filter.mpr ⟨hx, by simp [hxo]⟩
  have hne : (pngPool listing).filter
      (fun g => !(decide (some g = (if idx = (0 : Fin 2) then af.2 else af.1)))) ≠ [] :=
    List.ne_nil_of_mem hxr
  have hie : ((pngPool listing).filter
      (fun g => !(decide (some g =
        (if idx = (0 : Fin 2) then af.2 else af.1))))).isEmpty = false := by
    cases hrc : (pngPool listing).filter
        (fun g => !(decide (some g =
          (if idx = (0 : Fin 2) then af.2 else af.1)))) with
    | nil => exact absurd hrc hne
    | cons a t => rfl
  obtain ⟨fn, hc, hmemr⟩ := randomChoice_isSome _ r hne
  have hmf := List.mem_filter.mp hmemr
  have hfo : ¬ (some fn = (if idx = (0 : Fin 2) then af.2 else af.1)) := by
    simpa using hmf.2
  have heq : kdRerollAddon env (some name) af idx r =
      Except.ok (if idx = (0 : Fin 2) then (some fn, af.2)
                 else (af.1, some fn)) := by
    unfold kdRerollAddon
    simp only [hdir, hie, Bool.false_eq_true, if_false]
    rw [hc]
    by_cases hidx : idx = (0 : Fin 2)
    · simp [hidx]
    · simp [hidx]
  refine ⟨fn, _, heq, hmf.1, hfo, rfl, ?_⟩
  by_cases hidx : idx = (0 : Fin 2)
  · rw [if_pos hidx]
    rw [if_pos hidx] at hfo
    simpa using hfo
  · rw [if_neg hidx]
    rw [if_neg hidx] at hfo
    intro hcon
    exact hfo (by simpa using hcon.symm)

/-- A killer environment in which every add-on folder resolves. -/
def killerDemoEnv : KillerEnv :=
  { killer_files := ["Trapper.png"], allAddons := ["g.png"],
    addonSub := fun _ => some ["a1.png", "a2.png"],
    perkFiles := ["p1.png", "p2.png", "p3.png", "p4.png"] }

/-- Witness for C10: rerolling add-on 0 while the sibling holds `a2.png`. -/
theorem C10_witness :
    ∃ fn af', kdRerollAddon killerDemoEnv (some "TRAPPER")
        (some "a1.png", some "a2.png") 0 0 = Except.ok af' ∧
      fn ∈ pngPool ["a1.png", "a2.png"] ∧
      ¬ (some fn = (if (0 : Fin 2) = (0 : Fin 2) then
          ((some "a1.png", some "a2.png") : Option String × Option String).2
        else (some "a1.png", some "a2.png").1)) ∧
      af' = (if (0 : Fin 2) = (0 : Fin 2) then
          (some fn, ((some "a1.png", some "a2.png") :
            Option String × Option String).2)
        else ((some "a1.png", some "a2.png").1, some fn)) ∧
      ¬ (af'.1 = af'.2) :=
  C10_killer_addon_reroll_excludes_sibling killerDemoEnv "TRAPPER"
    (some "a1.png", some "a2.png") 0 0 ["a1.png", "a2.png"]
    rfl (by decide) (by decide)

/-! ## Claim C6 -/

/-- Which earlier finalizations a display update presupposes, read off the
state the step started from (combined survivor view): an update for a slot
of phase `i+1` is in scope only once every slot of the phases before it
holds a finalized pick. -/
def recScopeOK (st : FS) (r : PickRecord) : Prop :=
  match r.1 with
  | SlotTag.portrait => True
  | SlotTag.item => st.pickedSurvivor.isSome = true
  | SlotTag.addon =>
      st.tempItem.isSome = true ∧ st.pickedSurvivor.isSome = true
  | SlotTag.perk =>
      st.addon0.isSome = true ∧ st.addon1.isSome = true ∧
      st.tempItem.isSome = true ∧ st.pickedSurvivor.isSome = true

/-- Phase invariant of the combined survivor view: every phase at or beyond
`p` presupposes the finalized picks of the phases before `p`, and the perk
spin runs only after the add-on phase finalized. -/
def fsInv (st : FS) : Prop :=
  (st.timerActive = true → st.pdActive = false) ∧
  (2 ≤ st.phase → st.pickedSurvivor.isSome = true) ∧
  (3 ≤ st.phase → st.tempItem.isSome = true) ∧
  (4 ≤ st.phase → st.addon0.isSome = true ∧ st.addon1.isSome = true) ∧
  (st.pdActive = true → st.addon0.isSome = true ∧ st.addon1.isSome = true ∧
    st.tempItem.isSome = true ∧ st.pickedSurvivor.isSome = true)

theorem fsInv_init : fsInv fsInit :=
  ⟨fun _ => rfl, fun hx => absurd hx (by decide), fun hx => absurd hx (by decide),
    fun hx => absurd hx (by decide), fun hx => absurd hx (by decide)⟩

theorem fsSeqStep_preserves (env : FullSurvEnv)
    (h2 : ∀ item l, env.addonDir item = some l → 2 ≤ (pngPool l).length)
    (st st' : FS) (f : Nat → Nat) (recs : List PickRecord)
    (hinv : fsInv st) (hstep : fsSeqStep env st f = Except.ok (st', recs)) :
    fsInv st' ∧ ∀ r ∈ recs, recScopeOK st r := by
  obtain ⟨i1, i2, i3, i4, i5⟩ := hinv
  unfold fsSeqStep at hstep
  by_cases ht : st.timerActive = false
  · rw [if_pos ht] at hstep
    simp only [Except.ok.injEq, Prod.mk.injEq] at hstep
    obtain ⟨hst, hrecs⟩ := hstep
    subst hst
    subst hrecs
    exact ⟨⟨i1, i2, i3, i4, i5⟩, fun r hr => absurd hr (List.not_mem_nil r)⟩
  · have ht' : st.timerActive = true := by simpa using ht
    rw [if_neg ht] at hstep
    by_cases h1 : st.phase = 1
    · rw [if_pos h1] at hstep
      cases hc : randomChoice env.survivors (f 0) with
      | none => simp only [hc] at hstep; cases hstep
      | some choice =>
        simp only [hc] at hstep
        by_cases hcnt : 20 ≤ st.cnt + 1
        · rw [if_pos hcnt] at hstep
          simp only [Except.ok.injEq, Prod.mk.injEq] at hstep
          obtain ⟨hst, hrecs⟩ := hstep
          subst hst
          subst hrecs
          refine ⟨⟨i1, fun _ => rfl,
            fun hx => absurd (show (3 : Nat) ≤ 2 from hx) (by omega),
            fun hx => absurd (show (4 : Nat) ≤ 2 from hx) (by omega),
            fun hp => ⟨(i5 hp).1, (i5 hp).2.1, (i5 hp).2.2.1, rfl⟩⟩, ?_⟩
          intro r hr
          simp only [List.mem_cons, List.not_mem_nil, or_false] at hr
          rcases hr with rfl | rfl <;> trivial
        · rw [if_neg hcnt] at hstep
          simp only [Except.ok.injEq, Prod.mk.injEq] at hstep
          obtain ⟨hst, hrecs⟩ := hstep
          subst hst
          subst hrecs
          refine ⟨⟨i1, i2, i3, i4, i5⟩, ?_⟩
          intro r hr
          simp only [List.mem_cons, List.not_mem_nil, or_false] at hr
          subst hr
          trivial
    · rw [if_neg h1] at hstep
      by_cases hph2 : st.phase = 2
      · rw [if_pos hph2] at hstep
        cases hc : randomChoice env.items (f 0) with
        | none => simp only [hc] at hstep; cases hstep
        | some choice =>
          simp only [hc] at hstep
          by_cases hcnt : 20 ≤ st.cnt + 1
          · rw [if_pos hcnt] at hstep
            simp only [Except.ok.injEq, Prod.mk.injEq] at hstep
            obtain ⟨hst, hrecs⟩ := hstep
            subst hst
            subst hrecs
            refine ⟨⟨i1, fun _ => i2 (by omega), fun _ => rfl,
              fun hx => absurd (show (4 : Nat) ≤ 3 from hx) (by omega),
              fun hp => absurd hp (by simp [i1 ht'])⟩, ?_⟩
            intro r hr
            simp only [List.mem_cons, List.not_mem_nil, or_false] at hr
            rcases hr with rfl | rfl <;> exact i2 (by omega)
          · rw [if_neg hcnt] at hstep
            simp only [Except.ok.injEq, Prod.mk.injEq] at hstep
            obtain ⟨hst, hrecs⟩ := hstep
            subst hst
            subst hrecs
            refine ⟨⟨i1, i2, i3, i4, i5⟩, ?_⟩
            intro r hr
            simp only [List.mem_cons, List.not_mem_nil, or_false] at hr
            subst hr
            exact i2 (by omega)
      · rw [if_neg hph2] at hstep
        by_cases hph3 : st.phase = 3
        · rw [if_pos hph3] at hstep
          cases htemp : st.tempItem with
          | none => simp only [htemp] at hstep; cases hstep
          | some t =>
            simp only [htemp] at hstep
            cases hdir : env.addonDir (splitextRoot t) with
            | none => simp only [hdir] at hstep; cases hstep
            | some listing =>
              simp only [hdir] at hstep
              cases hc0 : randomChoice (pngPool listing) (f 0) with
              | none => simp only [hc0] at hstep; cases hstep
              | some c0 =>
                cases hc1 : randomChoice (pngPool listing) (f 1) with
                | none => simp only [hc0, hc1] at hstep; cases hstep
                | some c1 =>
                  simp only [hc0, hc1] at hstep
                  by_cases hcnt : 20 ≤ st.cnt + 1
                  · rw [if_pos hcnt] at hstep
                    have hlen : (randomSample (pngPool listing)
                        (min 2 (pngPool listing).length)
                        (fun n => f (n + 2))).length = 2 := by
                      rw [Nat.min_eq_left (h2 _ _ hdir)]
                      exact randomSample_length 2 _ _ (h2 _ _ hdir)
                    have hp0 : ∃ p0, (randomSample (pngPool listing)
                        (min 2 (pngPool listing).length)
                        (fun n => f (n + 2)))[0]? = some p0 := by
                      refine ⟨_, List.getElem?_eq_getElem (by omega)⟩
                    have hp1 : ∃ p1, (randomSample (pngPool listing)
                        (min 2 (pngPool listing).length)
                        (fun n => f (n + 2)))[1]? = some p1 := by
                      refine ⟨_, List.getElem?_eq_getElem (by omega)⟩
                    obtain ⟨p0, hp0⟩ := hp0
                    obtain ⟨p1, hp1⟩ := hp1
                    simp only [hp0, hp1] at hstep
                    simp only [Except.ok.injEq, Prod.mk.injEq] at hstep
                    obtain ⟨hst, hrecs⟩ := hstep
                    subst hst
                    subst hrecs
                    refine ⟨⟨i1, fun _ => i2 (by omega), fun _ => rfl,
                      fun _ => ⟨rfl, rfl⟩,
                      fun hp => absurd hp (by simp [i1 ht'])⟩, ?_⟩
                    intro r hr
                    simp only [List.mem_cons, List.mem_map] at hr
                    rcases hr with rfl | rfl | ⟨x, -, rfl⟩ <;>
                      exact ⟨by rw [htemp]; rfl, i2 (by omega)⟩
                  · rw [if_neg hcnt] at hstep
                    simp only [Except.ok.injEq, Prod.mk.injEq] at hstep
                    obtain ⟨hst, hrecs⟩ := hstep
                    subst hst
                    subst hrecs
                    refine ⟨⟨i1, i2, fun _ => rfl, i4,
                      fun hp => ⟨(i5 hp).1, (i5 hp).2.1, rfl, (i5 hp).2.2.2⟩⟩, ?_⟩
                    intro r hr
                    simp only [List.mem_cons, List.not_mem_nil, or_false] at hr
                    rcases hr with rfl | rfl <;>
                      exact ⟨by rw [htemp]; rfl, i2 (by omega)⟩
        · rw [if_neg hph3] at hstep
          by_cases hph4 : st.phase = 4
          · rw [if_pos hph4] at hstep
            simp only [Except.ok.injEq, Prod.mk.injEq] at hstep
            obtain ⟨hst, hrecs⟩ := hstep
            subst hst
            subst hrecs
            refine ⟨⟨fun hx => absurd (show false = true from hx) (by decide),
              fun _ => i2 (by omega),
              fun _ => i3 (by omega), fun _ => i4 (by omega),
              fun _ => ⟨(i4 (by omega)).1, (i4 (by omega)).2, i3 (by omega),
                i2 (by omega)⟩⟩, ?_⟩
            intro r hr
            exact absurd hr (List.not_mem_nil r)
          · rw [if_neg hph4] at hstep
            simp only [Except.ok.injEq, Prod.mk.injEq] at hstep
            obtain ⟨hst, hrecs⟩ := hstep
            subst hst
            subst hrecs
            exact ⟨⟨i1, i2, i3, i4, i5⟩,
              fun r hr => absurd hr (List.not_mem_nil r)⟩

theorem fsPdStep_preserves (env : FullSurvEnv)
    (st st' : FS) (f : Nat → Nat) (recs : List PickRecord)
    (hinv : fsInv st) (hstep : fsPdStep env st f = Except.ok (st', recs)) :
    fsInv st' ∧ ∀ r ∈ recs, recScopeOK st r := by
  obtain ⟨i1, i2, i3, i4, i5⟩ := hinv
  unfold fsPdStep at hstep
  cases hps : perkSpinStep env.perkFiles st.pdActive st.pdCnt f with
  | error e => simp only [hps] at hstep; cases hstep
  | ok q =>
    obtain ⟨act, cnt2, rev, recs2⟩ := q
    simp only [hps] at hstep
    simp only [Except.ok.injEq, Prod.mk.injEq] at hstep
    obtain ⟨hst, hrecs⟩ := hstep
    subst hst
    subst hrecs
    unfold perkSpinStep at hps
    by_cases hpd : st.pdActive = false
    · rw [if_pos hpd] at hps
      simp only [Except.ok.injEq, Prod.mk.injEq] at hps
      obtain ⟨hact, hcnt2, hrev, hrecs2⟩ := hps
      subst hact
      subst hcnt2
      subst hrev
      subst hrecs2
      exact ⟨⟨fun _ => rfl, i2, i3, i4, fun hp => absurd (show false = true from hp) (by decide)⟩,
        fun r hr => absurd hr (List.not_mem_nil r)⟩
    · have hpd' : st.pdActive = true := by simpa using hpd
      rw [if_neg hpd] at hps
      cases ha0 : randomChoice env.perkFiles (f 0) with
      | none => simp only [ha0] at hps; cases hps
      | some a0 =>
        cases ha1 : randomChoice env.perkFiles (f 1) with
        | none => simp only [ha0, ha1] at hps; cases hps
        | some a1 =>
          cases ha2 : randomChoice env.perkFiles (f 2) with
          | none => simp only [ha0, ha1, ha2] at hps; cases hps
          | some a2 =>
            cases ha3 : randomChoice env.perkFiles (f 3) with
            | none => simp only [ha0, ha1, ha2, ha3] at hps; cases hps
            | some a3 =>
              simp only [ha0, ha1, ha2, ha3] at hps
              by_cases hcnt : st.pdCnt + 1 > 20
              · rw [if_pos hcnt] at hps
                cases hsam : pySample env.perkFiles 4 (fun n => f (n + 4)) with
                | none => simp only [hsam] at hps; cases hps
                | some picks =>
                  simp only [hsam] at hps
                  simp only [Except.ok.injEq, Prod.mk.injEq] at hps
                  obtain ⟨hact, hcnt2, hrev, hrecs2⟩ := hps
                  subst hact
                  subst hcnt2
                  subst hrev
                  subst hrecs2
                  refine ⟨⟨fun _ => rfl, i2, i3, i4,
                    fun hp => absurd (show false = true from hp) (by decide)⟩, ?_⟩
                  intro r hr
                  rcases List.mem_append.mp hr with hr2 | hr2 <;>
                    rw [List.eq_of_mem_replicate hr2] <;> exact i5 hpd'
              · rw [if_neg hcnt] at hps
                simp only [Except.ok.injEq, Prod.mk.injEq] at hps
                obtain ⟨hact, hcnt2, hrev, hrecs2⟩ := hps
                subst hact
                subst hcnt2
                subst hrev
                subst hrecs2
                refine ⟨⟨fun hx => absurd (i1 hx) (by simp [hpd']), i2, i3, i4,
                  fun _ => i5 hpd'⟩, ?_⟩
                intro r hr
                rw [List.eq_of_mem_replicate hr]
                exact i5 hpd'

theorem fsStep_preserves (env : FullSurvEnv)
    (h2 : ∀ item l, env.addonDir item = some l → 2 ≤ (pngPool l).length)
    (ev : FSEv) (st st' : FS) (f : Nat → Nat) (recs : List PickRecord)
    (hinv : fsInv st) (hstep : fsStep env ev st f = Except.ok (st', recs)) :
    fsInv st' ∧ ∀ r ∈ recs, recScopeOK st r := by
  cases ev with
  | seqT => exact fsSeqStep_preserves env h2 st st' f recs hinv hstep
  | pdT => exact fsPdStep_preserves env st st' f recs hinv hstep

/-- Both killer add-on slots hold a finalized pick: `_reveal_addons` zips
its sampled picks against the two icon/label pairs, so exactly
`len(picks)` slots receive a final pick — both slots are finalized iff
`_addon_files` was set to a two-element sample. -/
def kdAddonsFinalized (kd : KD) : Prop :=
  ∃ picks, kd.addonFiles = some picks ∧ picks.length = 2

/-- Which earlier finalizations a display update presupposes in the killer
combined view (it has no item slot): a perk update requires *both* add-on
slots to hold finalized picks. -/
def kfScopeOK (st : KF) (r : PickRecord) : Prop :=
  match r.1 with
  | SlotTag.portrait => True
  | SlotTag.item => True
  | SlotTag.addon => st.kd.nameText.isSome = true
  | SlotTag.perk =>
      kdAddonsFinalized st.kd ∧ st.kd.nameText.isSome = true

/-- Phase invariant of the killer combined view, slot-level: whenever the
add-on phase has run to completion (counter past `SPIN_STEPS`) or the perk
spin is running, both add-on slots hold finalized picks. -/
def kfInv (st : KF) : Prop :=
  (st.kd.aActive = true → st.kd.nameText.isSome = true) ∧
  (20 < st.kd.pCnt → st.kd.nameText.isSome = true) ∧
  (20 < st.kd.aCnt →
    kdAddonsFinalized st.kd ∧ st.kd.nameText.isSome = true) ∧
  (st.pdActive = true →
    kdAddonsFinalized st.kd ∧ st.kd.nameText.isSome = true)

theorem kfInv_init : kfInv kfInit :=
  ⟨fun hx => absurd hx (by decide), fun hx => absurd hx (by decide),
    fun hx => absurd hx (by decide), fun hx => absurd hx (by decide)⟩

theorem kfStep_preserves (env : KillerEnv)
    (hres : ∀ k, ∃ l, env.addonSub k = some l ∧ 2 ≤ (pngPool l).length)
    (ev : KFEv) (st st' : KF) (f : Nat → Nat) (recs : List PickRecord)
    (hinv : kfInv st) (hstep : kfStep env ev st f = Except.ok (st', recs)) :
    kfInv st' ∧ ∀ r ∈ recs, kfScopeOK st r := by
  obtain ⟨i1, i2, i3, i4⟩ := hinv
  cases ev with
  | portraitT =>
    unfold kfStep kdPortraitStep at hstep
    by_cases hact : st.kd.pActive = false
    · rw [if_pos hact] at hstep
      simp only [Except.ok.injEq, Prod.mk.injEq] at hstep
      obtain ⟨hst, hrecs⟩ := hstep
      subst hst
      subst hrecs
      exact ⟨⟨i1, i2, i3, i4⟩, fun r hr => absurd hr (List.not_mem_nil r)⟩
    · rw [if_neg hact] at hstep
      cases hc : randomChoice env.killer_files (f 0) with
      | none => simp only [hc] at hstep; cases hstep
      | some pick =>
        simp only [hc] at hstep
        by_cases hcnt : 20 < st.kd.pCnt + 1
        · rw [if_pos hcnt] at hstep
          simp only [Except.ok.injEq, Prod.mk.injEq] at hstep
          obtain ⟨hst, hrecs⟩ := hstep
          subst hst
          subst hrecs
          refine ⟨⟨fun _ => rfl, fun _ => rfl,
            fun hx => absurd (show 20 < 0 from hx) (by omega),
            fun hp => ⟨(i4 hp).1, rfl⟩⟩, ?_⟩
          intro r hr
          simp only [List.mem_cons, List.not_mem_nil, or_false] at hr
          rcases hr with rfl | rfl <;> trivial
        · rw [if_neg hcnt] at hstep
          simp only [Except.ok.injEq, Prod.mk.injEq] at hstep
          obtain ⟨hst, hrecs⟩ := hstep
          subst hst
          subst hrecs
          refine ⟨⟨i1, fun hx => absurd hx hcnt, i3, i4⟩, ?_⟩
          intro r hr
          simp only [List.mem_cons, List.not_mem_nil, or_false] at hr
          subst hr
          trivial
  | addonT =>
    unfold kfStep kdAddonStep at hstep
    by_cases hact : st.kd.aActive = false
    · rw [if_pos hact] at hstep
      simp only [Except.ok.injEq, Prod.mk.injEq] at hstep
      obtain ⟨hst, hrecs⟩ := hstep
      subst hst
      subst hrecs
      exact ⟨⟨i1, i2, i3, i4⟩, fun r hr => absurd hr (List.not_mem_nil r)⟩
    · have hact' : st.kd.aActive = true := by simpa using hact
      rw [if_neg hact] at hstep
      cases hc0 : randomChoice env.allAddons (f 0) with
      | none => simp only [hc0] at hstep; cases hstep
      | some c0 =>
        cases hc1 : randomChoice env.allAddons (f 1) with
        | none => simp only [hc0, hc1] at hstep; cases hstep
        | some c1 =>
          simp only [hc0, hc1] at hstep
          by_cases hcnt : 20 < st.kd.aCnt + 1
          · rw [if_pos hcnt] at hstep
            obtain ⟨listing, hsub, hlen2⟩ :=
              hres (killerKey (match st.kd.nameText with
                               | some s => s
                               | none => ""))
            unfold kdRevealAddons at hstep
            simp only [hsub] at hstep
            simp only [Except.ok.injEq, Prod.mk.injEq] at hstep
            obtain ⟨hst, hrecs⟩ := hstep
            subst hst
            subst hrecs
            have hplen : (randomSample (pngPool listing)
                (min 2 (pngPool listing).length)
                (fun n => f (n + 2))).length = 2 := by
              rw [Nat.min_eq_left hlen2]
              exact randomSample_length 2 _ _ hlen2
            refine ⟨⟨fun hx => absurd (show false = true from hx) (by decide),
              i2, fun _ => ⟨⟨_, rfl, hplen⟩, i1 hact'⟩,
              fun hp => ⟨⟨_, rfl, hplen⟩, (i4 hp).2⟩⟩, ?_⟩
            intro r hr
            simp only [List.mem_cons, List.mem_map] at hr
            rcases hr with rfl | rfl | ⟨x, -, rfl⟩ <;> exact i1 hact'
          · rw [if_neg hcnt] at hstep
            simp only [Except.ok.injEq, Prod.mk.injEq] at hstep
            obtain ⟨hst, hrecs⟩ := hstep
            subst hst
            subst hrecs
            refine ⟨⟨i1, i2, fun hx => absurd hx hcnt, i4⟩, ?_⟩
            intro r hr
            simp only [List.mem_cons, List.not_mem_nil, or_false] at hr
            rcases hr with rfl | rfl <;> exact i1 hact'
  | seqT =>
    unfold kfStep kfSeqStep at hstep
    by_cases hact : st.seqActive = false
    · rw [if_pos hact] at hstep
      simp only [Except.ok.injEq, Prod.mk.injEq] at hstep
      obtain ⟨hst, hrecs⟩ := hstep
      subst hst
      subst hrecs
      exact ⟨⟨i1, i2, i3, i4⟩, fun r hr => absurd hr (List.not_mem_nil r)⟩
    · rw [if_neg hact] at hstep
      by_cases hcond1 : st.seqPhase = 1 ∧ 20 < st.kd.pCnt
      · rw [if_pos hcond1] at hstep
        simp only [Except.ok.injEq, Prod.mk.injEq] at hstep
        obtain ⟨hst, hrecs⟩ := hstep
        subst hst
        subst hrecs
        exact ⟨⟨fun _ => i2 hcond1.2, i2,
          fun hx => absurd (show 20 < 0 from hx) (by omega), i4⟩,
          fun r hr => absurd hr (List.not_mem_nil r)⟩
      · rw [if_neg hcond1] at hstep
        by_cases hcond2 : st.seqPhase = 2 ∧ 20 < st.kd.aCnt
        · rw [if_pos hcond2] at hstep
          simp only [Except.ok.injEq, Prod.mk.injEq] at hstep
          obtain ⟨hst, hrecs⟩ := hstep
          subst hst
          subst hrecs
          exact ⟨⟨i1, i2, i3, fun _ => i3 hcond2.2⟩,
            fun r hr => absurd hr (List.not_mem_nil r)⟩
        · rw [if_neg hcond2] at hstep
          by_cases hcond3 : st.seqPhase = 3 ∧ 20 < st.pdCnt
          · rw [if_pos hcond3] at hstep
            simp only [Except.ok.injEq, Prod.mk.injEq] at hstep
            obtain ⟨hst, hrecs⟩ := hstep
            subst hst
            subst hrecs
            exact ⟨⟨i1, i2, i3, i4⟩,
              fun r hr => absurd hr (List.not_mem_nil r)⟩
          · rw [if_neg hcond3] at hstep
            simp only [Except.ok.injEq, Prod.mk.injEq] at hstep
            obtain ⟨hst, hrecs⟩ := hstep
            subst hst
            subst hrecs
            exact ⟨⟨i1, i2, i3, i4⟩,
              fun r hr => absurd hr (List.not_mem_nil r)⟩
  | pdT =>
    unfold kfStep kfPdStep at hstep
    cases hps : perkSpinStep env.perkFiles st.pdActive st.pdCnt f with
    | error e => simp only [hps] at hstep; cases hstep
    | ok q =>
      obtain ⟨act, cnt2, rev, recs2⟩ := q
      simp only [hps] at hstep
      simp only [Except.ok.injEq, Prod.mk.injEq] at hstep
      obtain ⟨hst, hrecs⟩ := hstep
      subst hst
      subst hrecs
      unfold perkSpinStep at hps
      by_cases hpd : st.pdActive = false
      · rw [if_pos hpd] at hps
        simp only [Except.ok.injEq, Prod.mk.injEq] at hps
        obtain ⟨hact, hcnt2, hrev, hrecs2⟩ := hps
        subst hact
        subst hcnt2
        subst hrev
        subst hrecs2
        exact ⟨⟨i1, i2, i3,
          fun hp => absurd (show false = true from hp) (by decide)⟩,
          fun r hr => absurd hr (List.not_mem_nil r)⟩
      · have hpd' : st.pdActive = true := by simpa using hpd
        rw [if_neg hpd] at hps
        cases ha0 : randomChoice env.perkFiles (f 0) with
        | none => simp only [ha0] at hps; cases hps
        | some a0 =>
          cases ha1 : randomChoice env.perkFiles (f 1) with
          | none => simp only [ha0, ha1] at hps; cases hps
          | some a1 =>
            cases ha2 : randomChoice env.perkFiles (f 2) with
            | none => simp only [ha0, ha1, ha2] at hps; cases hps
            | some a2 =>
              cases ha3 : randomChoice env.perkFiles (f 3) with
              | none => simp only [ha0, ha1, ha2, ha3] at hps; cases hps
              | some a3 =>
                simp only [ha0, ha1, ha2, ha3] at hps
                by_cases hcnt : st.pdCnt + 1 > 20
                · rw [if_pos hcnt] at hps
                  cases hsam : pySample env.perkFiles 4 (fun n => f (n + 4)) with
                  | none => simp only [hsam] at hps; cases hps
                  | some picks =>
                    simp only [hsam] at hps
                    simp only [Except.ok.injEq, Prod.mk.injEq] at hps
                    obtain ⟨hact, hcnt2, hrev, hrecs2⟩ := hps
                    subst hact
                    subst hcnt2
                    subst hrev
                    subst hrecs2
                    refine ⟨⟨i1, i2, i3,
                      fun hp => absurd (show false = true from hp)
                        (by decide)⟩, ?_⟩
                    intro r hr
                    rcases List.mem_append.mp hr with hr2 | hr2 <;>
                      rw [List.eq_of_mem_replicate hr2] <;> exact i4 hpd'
                · rw [if_neg hcnt] at hps
                  simp only [Except.ok.injEq, Prod.mk.injEq] at hps
                  obtain ⟨hact, hcnt2, hrev, hrecs2⟩ := hps
                  subst hact
                  subst hcnt2
                  subst hrev
                  subst hrecs2
                  refine ⟨⟨i1, i2, i3, fun _ => i4 hpd'⟩, ?_⟩
                  intro r hr
                  rw [List.eq_of_mem_replicate hr]
                  exact i4 hpd'

/-- A killer environment whose add-on folders are all missing
(`os.path.isdir` fails for every derived key). -/
def kfDemoEnv : KillerEnv :=
  { killer_files := ["Trapper.png"], allAddons := ["globalAddon.png"],
    addonSub := fun _ => none,
    perkFiles := ["p1.png", "p2.png", "p3.png", "p4.png"] }

/-- An interleaving of the `FullDisplay` timers: the portrait spin runs to
completion, `_step` advances to phase 2, the add-on spin runs its 21 ticks
(its reveal aborts on the missing folder, finalizing nothing), `_step` sees
`_addon_counter > SPIN_STEPS` anyway and starts the perk spin, which then
animates the perk slots. -/
def kfDemoTrace : List KFEv :=
  List.replicate 21 KFEv.portraitT ++ [KFEv.seqT] ++
    List.replicate 21 KFEv.addonT ++ [KFEv.seqT, KFEv.pdT]

/-- `true` iff the demo run succeeds, emits a perk animation frame, and
still has the add-on slots un-finalized at the end. -/
def kfDemoCheck : Bool :=
  match kfRun kfDemoEnv kfInit kfDemoTrace with
  | Except.ok p =>
      decide ((SlotTag.perk, false) ∈ p.2) && p.1.kd.addonFiles.isNone
  | Except.error _ => false

/-- C6 counterexample: in the killer combined view with a missing add-on
folder, the run `kfDemoTrace` emits perk-slot animation frames while the
add-on phase never finalized any pick (`_addon_files` never set, and it is
never set later since nothing in the trace finalizes it) — a phase-`i+1`
slot is animated before every slot of phase `i` has finalized. -/
theorem C6_counterexample : kfDemoCheck = true := by rfl

/-- C6 (amended): in both combined scenarios the phases execute in their
declared order *provided every scoped pool resolves with enough
candidates*: under the assumptions that each survivor add-on folder that
exists holds at least two `.png` files, and that the killer add-on folder
exists and holds at least two `.png` files for every key, the slot-level
phase invariant (every phase at or beyond `p` presupposes a finalized pick
in *every* slot of the phases before `p`) holds initially and is preserved
by every timer callback, and each callback emits display updates only for
slots all of whose earlier phases' slots have finalized.  Without the
proviso the ordering fails: a missing (or too small) killer add-on folder
lets the perk phase start with add-on slots un-finalized, because
`FullDisplay._step` advances on counters alone. -/
theorem C6_amended_phase_order_with_resolving_pools
    (envS : FullSurvEnv) (envK : KillerEnv)
    (h2 : ∀ item l, envS.addonDir item = some l → 2 ≤ (pngPool l).length)
    (hres : ∀ k, ∃ l, envK.addonSub k = some l ∧ 2 ≤ (pngPool l).length) :
    (fsInv fsInit ∧
      ∀ ev st st' f recs, fsInv st →
        fsStep envS ev st f = Except.ok (st', recs) →
        fsInv st' ∧ ∀ r ∈ recs, recScopeOK st r) ∧
    (kfInv kfInit ∧
      ∀ ev st st' f recs, kfInv st →
        kfStep envK ev st f = Except.ok (st', recs) →
        kfInv st' ∧ ∀ r ∈ recs, kfScopeOK st r) :=
  ⟨⟨fsInv_init, fun ev st st' f recs hinv hstep =>
      fsStep_preserves envS h2 ev st st' f recs hinv hstep⟩,
    ⟨kfInv_init, fun ev st st' f recs hinv hstep =>
      kfStep_preserves envK hres ev st st' f recs hinv hstep⟩⟩

/-- Witness for the amended C6: one concrete first tick of each combined
scenario, in environments whose pools all resolve. -/
theorem C6_witness :
    (fsInv { fsInit with cnt := 1 } ∧
      recScopeOK fsInit (SlotTag.portrait, false)) ∧
    (kfInv { kfInit with kd := { kfInit.kd with pCnt := 1 } } ∧
      kfScopeOK kfInit (SlotTag.portrait, false)) := by
  have h := C6_amended_phase_order_with_resolving_pools fullDemoEnv
    killerDemoEnv
    (by
      intro item l hdl
      simp only [fullDemoEnv] at hdl
      by_cases hi : item = "Medkit"
      · rw [if_pos hi] at hdl
        injection hdl with h3
        rw [← h3]
        decide
      · rw [if_neg hi] at hdl
        cases hdl)
    (fun k => ⟨["a1.png", "a2.png"], rfl, by decide⟩)
  have ha := h.1.2 FSEv.seqT fsInit { fsInit with cnt := 1 } (fun _ => 0)
    [(SlotTag.portrait, false)] h.1.1 rfl
  have hb := h.2.2 KFEv.portraitT kfInit
    { kfInit with kd := { kfInit.kd with pCnt := 1 } } (fun _ => 0)
    [(SlotTag.portrait, false)] h.2.1 rfl
  exact ⟨⟨ha.1, ha.2 _ (List.mem_cons_self _ _)⟩,
    ⟨hb.1, hb.2 _ (List.mem_cons_self _ _)⟩⟩

end DbdRoulette
